import Mathlib

/-!
# A shallow embedding of the rlox tree-walking interpreter

This file embeds the core of the `rlox` crate (scanner → parser → interpreter
pipeline for a small Lox dialect) in Lean 4 and proves properties of the
embedded definitions.

Modelling conventions:
* Rust `f64` numbers are modelled as `Rat`.  None of the properties proved
  below depend on floating-point rounding: the interpreter only branches on
  the *constructor* of a `Literal`, never on numeric special values, and the
  orderings used agree with `f64` on ordinary (non-NaN) values.
* Rust's `HashMap<String, Literal>` is modelled as an association list with
  first-match lookup and replace-or-append insertion, which has the same
  observable `get`/`contains_key`/`insert` behaviour.
* `&mut` state threading is made explicit: every fallible routine returns its
  result together with the updated state, also on the error path, exactly as a
  Rust `&mut self` method leaves its mutations in place when it returns `Err`.
* Recursive routines whose Rust originals are not structurally recursive
  (the parser and the interpreter) take an explicit fuel argument; running out
  of fuel yields the distinguished `fuelExhausted` error, which the Rust code
  never produces.  All theorems supply enough fuel.
* `println!` output of the interpreter is modelled as an explicit list of
  printed lines, threaded through evaluation.
-/

namespace Rlox

/-- Alias for the built-in `Bool` type.  It is declared before the `Literal`
inductive below, whose constructor `Literal.Bool` shadows the name `Bool`
inside the `Literal` namespace. -/
abbrev BoolT := Bool

/-- `TokenType` from src/token.rs: the kind of a scanned token. -/
inductive TokenType where
  | LeftParen | RightParen | LeftBrace | RightBrace | Dot | Comma | Minus | Plus
  | Semicolon | Slash | Star
  | Bang | BangEqual | Equal | EqualEqual | Greater | GreaterEqual | Less | LessEqual
  | Identifier | String | Number
  | And | Class | Else | False | Fun | For | If | Nil | Or | Print | Return
  | This | True | Var | While
  | Eof
  deriving DecidableEq, Repr

mutual

/-- `Literal` from src/token.rs: the runtime value vocabulary.
Rust's `Number(f64)` is modelled with `Rat` (see the file header). -/
inductive Literal where
  | Identifier : String → Literal
  | Fun : Function → Literal
  | Str : String → Literal
  | Number : Rat → Literal
  | Nil : Literal
  | Bool : Bool → Literal

/-- `Function` from src/callable.rs: name token, parameter names, body. -/
inductive Function where
  | mk : Token → List String → List Stmt → Function

/-- `Token` from src/token.rs: kind, lexeme, optional literal, line, column. -/
inductive Token where
  | mk : TokenType → String → Option Literal → Nat → Nat → Token

/-- `Expr` from src/ast.rs. -/
inductive Expr where
  | Literal : Literal → Expr
  | Variable : Token → Expr
  | Assign : Token → Expr → Expr
  | Logical : Expr → Token → Expr → Expr
  | Unary : Token → Expr → Expr
  | Binary : Expr → Token → Expr → Expr
  | Call : Expr → Token → List Expr → Expr
  | Grouping : Expr → Expr

/-- `Stmt` from src/ast.rs. -/
inductive Stmt where
  | Block : List Stmt → Stmt
  | Expression : Expr → Stmt
  | Function : Token → List Token → List Stmt → Stmt
  | If : Expr → Stmt → Option Stmt → Stmt
  | Print : Expr → Stmt
  | Return : Token → Option Expr → Stmt
  | Var : Token → Option Expr → Stmt
  | While : Expr → Stmt → Stmt

end

/-- Accessor `Token::token_type`. -/
def Token.token_type : Token → TokenType
  | .mk t _ _ _ _ => t

/-- Accessor `Token::lexeme`. -/
def Token.lexeme : Token → String
  | .mk _ l _ _ _ => l

/-- Accessor `Token::literal`. -/
def Token.literal : Token → Option Literal
  | .mk _ _ v _ _ => v

/-- Accessor `Token::line`. -/
def Token.line : Token → Nat
  | .mk _ _ _ n _ => n

/-- Accessor `Token::col`. -/
def Token.col : Token → Nat
  | .mk _ _ _ _ c => c

/-- Accessor `Function::name` (src/callable.rs). -/
def Function.name : Function → Token
  | .mk n _ _ => n

/-- The parameter list of a `Function` (field `params` in src/callable.rs). -/
def Function.params : Function → List String
  | .mk _ p _ => p

/-- The body of a `Function` (field `body` in src/callable.rs). -/
def Function.body : Function → List Stmt
  | .mk _ _ b => b

/-- `LoxError` from src/main.rs: line, column, place, message. -/
structure LoxError where
  line : Nat
  col : Nat
  place : String
  message : String
  deriving DecidableEq, Repr

/-- `LoxError::new`. -/
def LoxError.new (line col : Nat) (message : String) : LoxError :=
  ⟨line, col, "", message⟩

/-- `LoxError::with_place`. -/
def LoxError.with_place (line col : Nat) (place message : String) : LoxError :=
  ⟨line, col, place, message⟩

/-- `LoxError::from_token`: an `Eof` token gets place `at end`, any other
token gets ``at '<lexeme>'``. -/
def LoxError.from_token (token : Token) (message : String) : LoxError :=
  match token.token_type with
  | .Eof => .with_place token.line token.col "at end" message
  | _ => .with_place token.line token.col ("at '" ++ token.lexeme ++ "'") message

/-- The error produced when the fuel of an embedded recursion runs out.
The Rust source has no such error; all theorems below supply enough fuel for
it never to arise. -/
def fuelExhausted : LoxError := ⟨0, 0, "", "fuel exhausted"⟩

/-- Rust `Debug` formatting of a `TokenType` (derived `Debug` prints the
variant name), used by `Display for Token`.  (The return type is left to
inference: inside this namespace `String` would denote the constructor
`TokenType.String`.) -/
def TokenType.debugStr (t : TokenType) :=
  match t with
  | .LeftParen => "LeftParen" | .RightParen => "RightParen"
  | .LeftBrace => "LeftBrace" | .RightBrace => "RightBrace"
  | .Dot => "Dot" | .Comma => "Comma" | .Minus => "Minus" | .Plus => "Plus"
  | .Semicolon => "Semicolon" | .Slash => "Slash" | .Star => "Star"
  | .Bang => "Bang" | .BangEqual => "BangEqual" | .Equal => "Equal"
  | .EqualEqual => "EqualEqual" | .Greater => "Greater"
  | .GreaterEqual => "GreaterEqual" | .Less => "Less" | .LessEqual => "LessEqual"
  | .Identifier => "Identifier" | .String => "String" | .Number => "Number"
  | .And => "And" | .Class => "Class" | .Else => "Else" | .False => "False"
  | .Fun => "Fun" | .For => "For" | .If => "If" | .Nil => "Nil" | .Or => "Or"
  | .Print => "Print" | .Return => "Return" | .This => "This" | .True => "True"
  | .Var => "Var" | .While => "While" | .Eof => "Eof"

/-- `Literal::identifier` (src/token.rs). -/
def Literal.identifier (l : Literal) :=
  match l with
  | .Identifier s => some s
  | _ => none

/-- `Literal::string` (src/token.rs). -/
def Literal.string (l : Literal) :=
  match l with
  | .Str s => some s
  | _ => none

/-- `Literal::number` (src/token.rs). -/
def Literal.number (l : Literal) :=
  match l with
  | .Number n => some n
  | _ => none

/-- `Literal::bool` (src/token.rs).  (Return type inferred: `Bool` would
denote the constructor `Literal.Bool` here.) -/
def Literal.bool (l : Literal) :=
  match l with
  | .Bool b => some b
  | _ => none

/-- `Literal::is_truthy` (src/token.rs): `nil` is falsey, a boolean is its
own truth value, everything else is truthy. -/
def Literal.is_truthy (l : Literal) :=
  match l with
  | .Nil => false
  | .Bool b => b
  | _ => true

/-- `Literal::is_equal` (src/token.rs): structural equality within a variant;
two `Fun` values compare by the lexemes of their name tokens; mismatched
variants are unequal.  Returns a `Literal.Bool`. -/
def Literal.is_equal (left right : Literal) : Literal :=
  .Bool (match left, right with
    | .Identifier a, .Identifier b => a == b
    | .Fun a, .Fun b => a.name.lexeme == b.name.lexeme
    | .Str a, .Str b => a == b
    | .Number a, .Number b => a == b
    | .Nil, .Nil => true
    | .Bool a, .Bool b => a == b
    | _, _ => false)

/-- `Literal::operate_string` (src/token.rs). -/
def Literal.operate_string (l : Literal) (f : String → String) : Option Literal :=
  l.string.map fun s => .Str (f s)

/-- `Literal::operate_number` (src/token.rs). -/
def Literal.operate_number (l : Literal) (f : Rat → Rat) : Option Literal :=
  l.number.map fun n => .Number (f n)

/-- `Literal::operate_bool` (src/token.rs).  (`BoolT` is the root `Bool`;
inside this namespace the bare name would denote `Literal.Bool`.) -/
def Literal.operate_bool (l : Literal) (f : BoolT → BoolT) : Option Literal :=
  l.bool.map fun b => .Bool (f b)

/-- `Literal::operate_truthy` (src/token.rs). -/
def Literal.operate_truthy (l : Literal) (f : BoolT → BoolT) : Literal :=
  .Bool (f l.is_truthy)

/-- `Literal::operate_number_binary` (src/token.rs): fails (`None`) unless
both operands are numbers. -/
def Literal.operate_number_binary (l : Literal) (right : Literal)
    (f : Rat → Rat → Rat) : Option Literal :=
  match right.number with
  | none => none
  | some r => l.operate_number fun n => f n r

/-- `Literal::callable` (src/token.rs): only a `Fun` value is callable. -/
def Literal.callable (l : Literal) : Option Function :=
  match l with
  | .Fun f => some f
  | _ => none

/-- `Display for Literal` (src/token.rs).  The `Number` arm models Rust's
`f64` `Display` with `Rat`'s string representation. -/
def Literal.display (l : Literal) :=
  match l with
  | .Identifier i => "<" ++ i ++ ">"
  | .Fun f => "<fn " ++ f.name.lexeme ++ ">"
  | .Str s => s
  | .Number n => toString n
  | .Nil => "nil"
  | .Bool b => if b then "true" else "false"

/-- `Display for Token` (src/token.rs): debug-formatted kind, lexeme, and the
literal when present. -/
def Token.display (t : Token) :=
  match t.literal with
  | none => t.token_type.debugStr ++ " " ++ t.lexeme
  | some lit => t.token_type.debugStr ++ " " ++ t.lexeme ++ " " ++ lit.display

/-- `LoxError::unexpected_type` (src/main.rs). -/
def LoxError.unexpected_type (token : Token) : LoxError :=
  .from_token token ("Unexpected type of token " ++ token.display)

/-- `LoxError::return_unwind` (src/main.rs). -/
def LoxError.return_unwind (keyword : Token) : LoxError :=
  .from_token keyword "RETURN"

/-- `Environment` from src/environment.rs: a `HashMap<String, Literal>` of
local bindings plus an optional enclosing scope.  The Rust field is
`parent: Option<Weak<Environment>>`; the weak reference is modelled as a
direct optional sub-environment (the active code of `get`/`assign` never
dereferences it). -/
inductive Environment where
  | mk : Option Environment → List (String × Literal) → Environment

/-- The `parent` field of an `Environment`. -/
def Environment.parent : Environment → Option Environment
  | .mk p _ => p

/-- The `values` field of an `Environment` (the local name→value mapping). -/
def Environment.values : Environment → List (String × Literal)
  | .mk _ v => v

/-- `HashMap::get` on the modelled mapping: first matching key. -/
def valuesGet (m : List (String × Literal)) (k : String) : Option Literal :=
  match m with
  | [] => none
  | (k', v') :: rest => if k' = k then some v' else valuesGet rest k

/-- `HashMap::insert` on the modelled mapping: replace the first binding of
the key, or append a new one. -/
def valuesInsert (m : List (String × Literal)) (k : String) (v : Literal) :
    List (String × Literal) :=
  match m with
  | [] => [(k, v)]
  | (k', v') :: rest =>
      if k' = k then (k, v) :: rest else (k', v') :: valuesInsert rest k v

/-- `Environment::new` (src/environment.rs). -/
def Environment.new : Environment := .mk none []

/-- `Environment::from_parent` (src/environment.rs): fresh empty scope whose
parent is the given environment. -/
def Environment.from_parent (parent : Environment) : Environment :=
  .mk (some parent) []

/-- `Environment::define` (src/environment.rs): insert/overwrite in the local
mapping only. -/
def Environment.define (env : Environment) (name : String) (value : Literal) :
    Environment :=
  .mk env.parent (valuesInsert env.values name value)

/-- The undefined-variable error shared by `Environment::get` and
`Environment::assign` (src/environment.rs). -/
def undefinedVariable (name : Token) : LoxError :=
  .from_token name ("Undefined variable '" ++ name.lexeme ++ "'.")

/-- `Environment::get` (src/environment.rs): looks the lexeme up in the local
mapping and errors on a miss.  (The recursive delegation to the enclosing
scope is commented out in the source.) -/
def Environment.get (env : Environment) (name : Token) : Except LoxError Literal :=
  match valuesGet env.values name.lexeme with
  | some v => .ok v
  | none => .error (undefinedVariable name)

/-- `Environment::assign` (src/environment.rs): if the lexeme is a local key,
overwrite it and return the value; otherwise error.  The updated environment
is returned alongside the result (the Rust method mutates `self`). -/
def Environment.assign (env : Environment) (name : Token) (value : Literal) :
    Except LoxError Literal × Environment :=
  if (valuesGet env.values name.lexeme).isSome then
    (.ok value, .mk env.parent (valuesInsert env.values name.lexeme value))
  else
    (.error (undefinedVariable name), env)

/-- Modelled from the spec: `Environment::get_var` is called by the
interpreter (src/interpreter.rs, `Expr::Variable` arm) but is not defined
anywhere in the source.  Spec §4.4: lookup "checks the local mapping; on
miss, if an enclosing scope exists, delegates to it recursively; if no
enclosing scope and still missing, fails with an undefined-variable error
carrying the token's source position." -/
def Environment.get_var : Environment → Token → Except LoxError Literal
  | .mk parent values, name =>
    match valuesGet values name.lexeme with
    | some v => .ok v
    | none =>
      match parent with
      | some p => p.get_var name
      | none => .error (undefinedVariable name)

/-- `Function::arity` (src/callable.rs): the number of parameters. -/
def Function.arity (f : Function) : Nat := f.params.length

/-- `<Function as Callable>::new` (src/callable.rs): built from a function
declaration statement, mapping each parameter token to its lexeme. -/
def Function.new (declaration : Stmt) : Option Function :=
  match declaration with
  | .Function name params body => some (.mk name (params.map Token.lexeme) body)
  | _ => none

/-- The observable interpreter state: the lines printed by `println!`, in
order.  (The `Interpreter` struct's only field, `globals`, is written once in
`Interpreter::new` and never read by any method, so it is not modelled.) -/
abbrev Output := List String

/-- Stand-in for a Rust `unreachable!()` panic (src/interpreter.rs has them in
the `Logical` and `Unary` arms, for operators the parser never produces). -/
def unreachablePanic : LoxError := ⟨0, 0, "", "unreachable"⟩

/-- Stand-in for the Rust `todo!()` panic in the catch-all arm of the binary
operator match (src/interpreter.rs). -/
def todoPanic : LoxError := ⟨0, 0, "", "todo"⟩

/-- `arguments.get(n).unwrap()` in `Function::call` (src/callable.rs); the
unwrap never fires because the interpreter checks arity before calling.  The
panicking out-of-range path is modelled with `Nil`. -/
def argAt (args : List Literal) (n : Nat) : Literal :=
  (args.get? n).getD .Nil

/-- The parameter-binding loop of `Function::call` (src/callable.rs):
`for (n, param) in self.params.iter().enumerate()` defines each parameter to
the matching argument in the fresh call scope. -/
def bindParams (params : List String) (args : List Literal) (n : Nat)
    (env : Environment) : Environment :=
  match params with
  | [] => env
  | p :: rest => bindParams rest args (n + 1) (env.define p (argAt args n))

/-- The arity error of the `Expr::Call` arm (src/interpreter.rs):
`format!("Expected {arity} + arguments but got {len}.")` — reproduced with
its stray `" + "` verbatim. -/
def arityMessage (arity len : Nat) : String :=
  "Expected " ++ toString arity ++ " + arguments but got " ++ toString len ++ "."

/-- Rust `bool` ordering, `a > b` (true > false). -/
def boolGt (a b : Bool) : Bool := a && !b

/-- Rust `bool` ordering, `a >= b`. -/
def boolGe (a b : Bool) : Bool := a || !b

/-- Rust `bool` ordering, `a < b`. -/
def boolLt (a b : Bool) : Bool := !a && b

/-- Rust `bool` ordering, `a <= b`. -/
def boolLe (a b : Bool) : Bool := !a || b

/-- The binary-operator dispatch of `Interpreter::evaluate`'s `Expr::Binary`
arm (src/interpreter.rs), applied to the two already-evaluated operands.  It
is pure: the arm only combines the operand values and the operator token. -/
def binaryOp (operator : Token) (left right : Literal) : Except LoxError Literal :=
  match operator.token_type with
  | .Minus =>
      match left.operate_number_binary right (fun l r => l - r) with
      | some v => .ok v
      | none => .error (.unexpected_type operator)
  | .Plus =>
      if left.number.isSome && right.number.isSome then
        match left.operate_number_binary right (fun l r => l + r) with
        | some v => .ok v
        | none => .error (.unexpected_type operator)
      else if left.string.isSome && right.string.isSome then
        match right.string with
        | none => .error (.unexpected_type operator)
        | some r =>
          match left.operate_string (fun l => l ++ r) with
          | some v => .ok v
          | none => .error (.unexpected_type operator)
      else .error (.unexpected_type operator)
  | .Slash =>
      match left.operate_number_binary right (fun l r => l / r) with
      | some v => .ok v
      | none => .error (.unexpected_type operator)
  | .Star =>
      match left.operate_number_binary right (fun l r => l * r) with
      | some v => .ok v
      | none => .error (.unexpected_type operator)
  | .Greater =>
      match left, right with
      | .Number l, .Number r => .ok (.Bool (decide (l > r)))
      | .Bool l, .Bool r => .ok (.Bool (boolGt l r))
      | l, r => .ok (.Bool (boolGt l.is_truthy r.is_truthy))
  | .GreaterEqual =>
      match left, right with
      | .Number l, .Number r => .ok (.Bool (decide (l ≥ r)))
      | .Bool l, .Bool r => .ok (.Bool (boolGe l r))
      | l, r => .ok (.Bool (boolGe l.is_truthy r.is_truthy))
  | .Less =>
      match left, right with
      | .Number l, .Number r => .ok (.Bool (decide (l < r)))
      | .Bool l, .Bool r => .ok (.Bool (boolLt l r))
      | l, r => .ok (.Bool (boolLt l.is_truthy r.is_truthy))
  | .LessEqual =>
      match left, right with
      | .Number l, .Number r => .ok (.Bool (decide (l ≤ r)))
      | .Bool l, .Bool r => .ok (.Bool (boolLe l r))
      | l, r => .ok (.Bool (boolLe l.is_truthy r.is_truthy))
  | .BangEqual =>
      match (Literal.is_equal left right).operate_bool (fun b => !b) with
      | some v => .ok v
      | none => .error unreachablePanic
  | .EqualEqual => .ok (Literal.is_equal left right)
  | _ => .error todoPanic

mutual

/-- `Interpreter::evaluate` (src/interpreter.rs), fuelled.  Returns the
result together with the updated output trace and environment (the Rust
method takes `&mut self` and `&mut Environment`; its mutations persist also
when it returns `Err`). -/
def evaluate : Nat → Expr → Output → Environment →
    Except LoxError Literal × Output × Environment
  | 0, _, out, env => (.error fuelExhausted, out, env)
  | fuel + 1, expr, out, env =>
    match expr with
    | .Literal value => (.ok value, out, env)
    | .Variable name => (env.get_var name, out, env)
    | .Assign name value =>
      match evaluate fuel value out env with
      | (.error e, o, en) => (.error e, o, en)
      | (.ok v, o, en) =>
        let (r, en') := en.assign name v
        (r, o, en')
    | .Logical left operator right =>
      match evaluate fuel left out env with
      | (.error e, o, en) => (.error e, o, en)
      | (.ok l, o, en) =>
        match operator.token_type with
        | .Or =>
          if l.is_truthy then (.ok l, o, en) else evaluate fuel right o en
        | .And =>
          if !l.is_truthy then (.ok l, o, en) else evaluate fuel right o en
        | _ => (.error unreachablePanic, o, en)
    | .Unary operator right =>
      match evaluate fuel right out env with
      | (.error e, o, en) => (.error e, o, en)
      | (.ok r, o, en) =>
        match operator.token_type with
        | .Bang => (.ok (r.operate_truthy fun n => !n), o, en)
        | .Minus =>
          match r.operate_number (fun n => -n) with
          | some v => (.ok v, o, en)
          | none => (.error (.unexpected_type operator), o, en)
        | _ => (.error unreachablePanic, o, en)
    | .Binary left operator right =>
      match evaluate fuel left out env with
      | (.error e, o, en) => (.error e, o, en)
      | (.ok l, o, en) =>
        match evaluate fuel right o en with
        | (.error e, o₂, en₂) => (.error e, o₂, en₂)
        | (.ok r, o₂, en₂) => (binaryOp operator l r, o₂, en₂)
    | .Call callee paren arguments =>
      match evaluate fuel callee out env with
      | (.error e, o, en) => (.error e, o, en)
      | (.ok calleeVal, o, en) =>
        match evaluateArgs fuel arguments o en with
        | (.error e, o₂, en₂) => (.error e, o₂, en₂)
        | (.ok args, o₂, en₂) =>
          match calleeVal.callable with
          | none =>
            (.error (.from_token paren "Can only call functions and classes."),
              o₂, en₂)
          | some fn =>
            if args.length ≠ fn.arity then
              (.error (.from_token paren (arityMessage fn.arity args.length)),
                o₂, en₂)
            else
              match functionCall fuel fn o₂ en₂ args with
              | (r, o₃) => (r, o₃, en₂)
    | .Grouping expression => evaluate fuel expression out env

/-- The argument-evaluation loop of the `Expr::Call` arm
(src/interpreter.rs): evaluates the arguments left-to-right, stopping at the
first error. -/
def evaluateArgs : Nat → List Expr → Output → Environment →
    Except LoxError (List Literal) × Output × Environment
  | 0, _, out, env => (.error fuelExhausted, out, env)
  | fuel + 1, args, out, env =>
    match args with
    | [] => (.ok [], out, env)
    | a :: rest =>
      match evaluate fuel a out env with
      | (.error e, o, en) => (.error e, o, en)
      | (.ok v, o, en) =>
        match evaluateArgs fuel rest o en with
        | (.error e, o₂, en₂) => (.error e, o₂, en₂)
        | (.ok vs, o₂, en₂) => (.ok (v :: vs), o₂, en₂)

/-- `<Function as Callable>::call` (src/callable.rs): a fresh child scope of
the call-site environment, parameters bound to the arguments, then the body
runs as a block; absent an early return the result is `Nil`.  The call-site
environment is taken by shared reference in Rust and is not mutated, so it is
not returned. -/
def functionCall : Nat → Function → Output → Environment → List Literal →
    Except LoxError Literal × Output
  | 0, _, out, _, _ => (.error fuelExhausted, out)
  | fuel + 1, fn, out, env, args =>
    let callEnv := bindParams fn.params args 0 (Environment.from_parent env)
    match execute_block fuel fn.body out callEnv with
    | (.error e, o, _) => (.error e, o)
    | (.ok _, o, _) => (.ok .Nil, o)

/-- `Interpreter::execute_block` (src/interpreter.rs): executes the
statements in a fresh child scope of `env`.  On success the source restores
the caller's environment via `block_env.fallback()`; `fallback` is not
defined in the source, so that step is modelled from the spec (§4.2/§4.6:
the block's scope is discarded on exit and the enclosing environment
restored).  On an error the `?` returns before the restore, leaving the
caller's environment as it was. -/
def execute_block : Nat → List Stmt → Output → Environment →
    Except LoxError Unit × Output × Environment
  | 0, _, out, env => (.error fuelExhausted, out, env)
  | fuel + 1, statements, out, env =>
    match executeStmts fuel statements out (Environment.from_parent env) with
    | (.error e, o, _) => (.error e, o, env)
    | (.ok _, o, benv) => (.ok (), o, benv.parent.getD env)

/-- The statement loop shared by `Interpreter::execute_block` and
`Interpreter::interpret_with_env` (src/interpreter.rs): execute each
statement in order, stopping at the first error. -/
def executeStmts : Nat → List Stmt → Output → Environment →
    Except LoxError Unit × Output × Environment
  | 0, _, out, env => (.error fuelExhausted, out, env)
  | fuel + 1, stmts, out, env =>
    match stmts with
    | [] => (.ok (), out, env)
    | s :: rest =>
      match execute fuel s out env with
      | (.error e, o, en) => (.error e, o, en)
      | (.ok _, o, en) => executeStmts fuel rest o en

/-- `Interpreter::execute` (src/interpreter.rs), fuelled. -/
def execute : Nat → Stmt → Output → Environment →
    Except LoxError Literal × Output × Environment
  | 0, _, out, env => (.error fuelExhausted, out, env)
  | fuel + 1, stmt, out, env =>
    match stmt with
    | .Block statements =>
      match execute_block fuel statements out env with
      | (.error e, o, en) => (.error e, o, en)
      | (.ok _, o, en) => (.ok .Nil, o, en)
    | .Expression expression => evaluate fuel expression out env
    | .Function name params body =>
      match Function.new (.Function name params body) with
      | some fn => (.ok .Nil, out, env.define fn.name.lexeme (.Fun fn))
      | none => (.error unreachablePanic, out, env)
    | .If condition then_branch else_branch =>
      match evaluate fuel condition out env with
      | (.error e, o, en) => (.error e, o, en)
      | (.ok c, o, en) =>
        if c.is_truthy then execute fuel then_branch o en
        else
          match else_branch with
          | some eb => execute fuel eb o en
          | none => (.ok .Nil, o, en)
    | .Print expression =>
      match evaluate fuel expression out env with
      | (.error e, o, en) => (.error e, o, en)
      | (.ok v, o, en) => (.ok .Nil, o ++ [v.display], en)
    | .Return keyword _ =>
      -- The source `execute` has no `Stmt::Return` arm (its match is
      -- non-exhaustive over `Stmt`).  Modelled from the spec: §4.6 calls
      -- return's unwinding "a known incompleteness"; the source's otherwise
      -- unused `LoxError::return_unwind` helper is the natural stand-in.
      (.error (.return_unwind keyword), out, env)
    | .Var name initializer =>
      match initializer with
      | some init =>
        match evaluate fuel init out env with
        | (.error e, o, en) => (.error e, o, en)
        | (.ok v, o, en) => (.ok .Nil, o, en.define name.lexeme v)
      | none => (.ok .Nil, out, env.define name.lexeme .Nil)
    | .While condition body => whileLoop fuel condition body out env

/-- The loop of the `Stmt::While` arm of `Interpreter::execute`
(src/interpreter.rs): re-evaluate the condition before each iteration and
repeat while truthy; the statement's result is `Nil`. -/
def whileLoop : Nat → Expr → Stmt → Output → Environment →
    Except LoxError Literal × Output × Environment
  | 0, _, _, out, env => (.error fuelExhausted, out, env)
  | fuel + 1, condition, body, out, env =>
    match evaluate fuel condition out env with
    | (.error e, o, en) => (.error e, o, en)
    | (.ok c, o, en) =>
      if c.is_truthy then
        match execute fuel body o en with
        | (.error e, o₂, en₂) => (.error e, o₂, en₂)
        | (.ok _, o₂, en₂) => whileLoop fuel condition body o₂ en₂
      else (.ok .Nil, o, en)

end

/-- `Interpreter::interpret_with_env` (src/interpreter.rs): execute the
statements in order against the given environment; on success the result is
the empty string (the source's `Ok(String::new())`). -/
def interpret_with_env (fuel : Nat) (statements : List Stmt) (out : Output)
    (env : Environment) : Except LoxError String × Output × Environment :=
  match executeStmts fuel statements out env with
  | (.error e, o, en) => (.error e, o, en)
  | (.ok _, o, en) => (.ok "", o, en)

/-- `Interpreter::interpret` (src/interpreter.rs): like
`interpret_with_env`, against a fresh environment, which is discarded. -/
def interpret (fuel : Nat) (statements : List Stmt) (out : Output) :
    Except LoxError String × Output :=
  match interpret_with_env fuel statements out Environment.new with
  | (r, o, _) => (r, o)

/-- The parser's state (src/parser.rs): the token vector and the cursor. -/
structure PState where
  tokens : List Token
  current : Nat

/-- Default token for the out-of-range case of the source's
`self.tokens[self.current]` indexing (a panic in Rust).  The scanner always
terminates the token vector with an `Eof` token, so with scanner-produced
input the cursor never leaves the vector; an `Eof` default keeps every
`is_at_end` loop guard faithful on such input. -/
def eofDefault : Token := .mk .Eof "" none 0 0

/-- `Parser::peek` (src/parser.rs). -/
def PState.peek (st : PState) : Token :=
  (st.tokens.get? st.current).getD eofDefault

/-- `Parser::previous` (src/parser.rs). -/
def PState.previous (st : PState) : Token :=
  (st.tokens.get? (st.current - 1)).getD eofDefault

/-- `Parser::is_at_end` (src/parser.rs). -/
def PState.is_at_end (st : PState) : Bool :=
  st.peek.token_type == .Eof

/-- `Parser::advance` (src/parser.rs): step the cursor unless at end, then
return `previous`. -/
def PState.advance (st : PState) : Token × PState :=
  let st' := if st.is_at_end then st else { st with current := st.current + 1 }
  (st'.previous, st')

/-- `Parser::check` (src/parser.rs). -/
def PState.check (st : PState) (token_type : TokenType) : Bool :=
  st.peek.token_type == token_type

/-- `Parser::match_token_type` (src/parser.rs): consume the next token iff it
has the given type. -/
def PState.match_token_type (st : PState) (token_type : TokenType) :
    Bool × PState :=
  if st.check token_type then (true, (st.advance).2) else (false, st)

/-- `Parser::match_` (src/parser.rs): consume the next token iff its type is
the first match in the list. -/
def PState.matchTypes (st : PState) : List TokenType → Bool × PState
  | [] => (false, st)
  | t :: rest =>
    if st.check t then (true, (st.advance).2) else st.matchTypes rest

/-- `Parser::consume` (src/parser.rs): advance past a token of the expected
type, or error at the current token with the given message. -/
def PState.consume (st : PState) (untilTy : TokenType) (message : String) :
    Except LoxError Token × PState :=
  if st.check untilTy then
    let (t, st') := st.advance
    (.ok t, st')
  else
    (.error (.from_token st.peek message), st)

/-- `st.current < st.tokens.length` whenever the parser is not at end: past
the end, `peek` yields the `Eof` default. -/
theorem lt_length_of_not_at_end (st : PState) (h : ¬ st.is_at_end) :
    st.current < st.tokens.length := by
  by_contra hge
  have hnone : st.tokens.get? st.current = none :=
    List.get?_eq_none.mpr (Nat.le_of_not_lt hge)
  rw [List.get?_eq_getElem?] at hnone
  simp [PState.is_at_end, PState.peek, hnone, eofDefault, Token.token_type] at h

/-- The loop of `Parser::synchronize` (src/parser.rs): discard tokens until
just after a `;`, or until a declaration/statement-starting keyword or the
end of input.  Fuelled for structural recursion; `synchronize` passes enough
fuel for the zero branch never to be taken (see
`synchronizeLoop_fuel_stable`). -/
def synchronizeLoop : Nat → PState → PState
  | 0, st => st
  | fuel + 1, st =>
    if st.is_at_end then st
    else if st.previous.token_type == .Semicolon then st
    else
      match st.peek.token_type with
      | .Class | .Fun | .Var | .For | .If | .While | .Print | .Return => st
      | _ => synchronizeLoop fuel (st.advance).2

/-- The fuel given to `synchronizeLoop` by `synchronize` is enough: beyond
`tokens.length - current` steps the loop's result no longer depends on the
fuel, because every iteration advances the cursor and the loop stops at the
end of the vector. -/
theorem synchronizeLoop_fuel_stable :
    ∀ (fuel : Nat) (st : PState), st.tokens.length - st.current < fuel →
      synchronizeLoop (fuel + 1) st = synchronizeLoop fuel st := by
  intro fuel
  induction fuel with
  | zero => intro st h; omega
  | succ n ih =>
    intro st h
    show synchronizeLoop (n + 1 + 1) st = synchronizeLoop (n + 1) st
    by_cases hend : st.is_at_end
    · simp [synchronizeLoop, hend]
    · have hlt := lt_length_of_not_at_end st hend
      have hb : st.is_at_end = false := by simpa using hend
      have hadv : (st.advance).2.tokens.length - (st.advance).2.current < n := by
        simp [PState.advance, hb]
        omega
      have hrec := ih (st.advance).2 hadv
      conv_lhs => rw [synchronizeLoop]
      conv_rhs => rw [synchronizeLoop]
      simp only [hb, Bool.false_eq_true, if_false]
      by_cases hsemi : (st.previous.token_type == TokenType.Semicolon) = true
      · simp [hsemi]
      · cases htt : st.peek.token_type <;> simp [hsemi, htt, hrec]

/-- `Parser::synchronize` (src/parser.rs): advance once, then discard to a
resynchronization point.  The fuel bound exceeds the number of tokens left,
which bounds the loop's iterations. -/
def synchronize (st : PState) : PState :=
  synchronizeLoop ((st.advance).2.tokens.length + 1 - (st.advance).2.current)
    (st.advance).2

mutual

/-- `Parser::expression` (src/parser.rs). -/
def expression : Nat → PState → Except LoxError Expr × PState
  | 0, st => (.error fuelExhausted, st)
  | fuel + 1, st => assignment fuel st

/-- `Parser::declaration` (src/parser.rs): `fun`/`var`/statement dispatch;
on an error from the `var`/statement branch the parser synchronizes, and the
error is returned nonetheless. -/
def declaration : Nat → PState → Except LoxError Stmt × PState
  | 0, st => (.error fuelExhausted, st)
  | fuel + 1, st =>
    let (m, st) := st.match_token_type .Fun
    if m then function fuel "function" st
    else
      let (mv, st) := st.match_token_type .Var
      match if mv then var_declaration fuel st else statement fuel st with
      | (.error e, st) => (.error e, synchronize st)
      | (.ok s, st) => (.ok s, st)

/-- `Parser::statement` (src/parser.rs). -/
def statement : Nat → PState → Except LoxError Stmt × PState
  | 0, st => (.error fuelExhausted, st)
  | fuel + 1, st =>
    let (m, st) := st.match_token_type .For
    if m then for_statement fuel st else
    let (m, st) := st.match_token_type .If
    if m then if_statement fuel st else
    let (m, st) := st.match_token_type .Print
    if m then print_statement fuel st else
    let (m, st) := st.match_token_type .Return
    if m then return_statement fuel st else
    let (m, st) := st.match_token_type .While
    if m then while_statement fuel st else
    let (m, st) := st.match_token_type .LeftBrace
    if m then
      match block fuel st with
      | (.error e, st) => (.error e, st)
      | (.ok stmts, st) => (.ok (.Block stmts), st)
    else expression_statement fuel st

/-- `Parser::for_statement` (src/parser.rs): parse the three clauses and
desugar to a `While`, wrapping increment and initializer in implicit blocks;
a missing condition becomes the literal `true`. -/
def for_statement : Nat → PState → Except LoxError Stmt × PState
  | 0, st => (.error fuelExhausted, st)
  | fuel + 1, st =>
    match st.consume .LeftParen "Expect '(' after for." with
    | (.error e, st) => (.error e, st)
    | (.ok _, st) =>
      let (msemi, st) := st.match_token_type .Semicolon
      match
        (if msemi then (.ok none, st)
        else
          let (mvar, st) := st.match_token_type .Var
          if mvar then
            match var_declaration fuel st with
            | (.error e, st) => (.error e, st)
            | (.ok s, st) => (.ok (some s), st)
          else
            match expression_statement fuel st with
            | (.error e, st) => (.error e, st)
            | (.ok s, st) => (.ok (some s), st) :
          Except LoxError (Option Stmt) × PState)
      with
      | (.error e, st) => (.error e, st)
      | (.ok (initializer : Option Stmt), st) =>
        match
          (if !(st.check .Semicolon) then
            match expression fuel st with
            | (.error e, st) => (.error e, st)
            | (.ok c, st) => (.ok (some c), st)
          else (.ok none, st) : Except LoxError (Option Expr) × PState)
        with
        | (.error e, st) => (.error e, st)
        | (.ok (condition : Option Expr), st) =>
          match st.consume .Semicolon "Expect ';' after loop condition." with
          | (.error e, st) => (.error e, st)
          | (.ok _, st) =>
            match
              (if !(st.check .RightParen) then
                match expression fuel st with
                | (.error e, st) => (.error e, st)
                | (.ok c, st) => (.ok (some c), st)
              else (.ok none, st) : Except LoxError (Option Expr) × PState)
            with
            | (.error e, st) => (.error e, st)
            | (.ok (increment : Option Expr), st) =>
              match st.consume .RightParen "Expect ')' after for clauses." with
              | (.error e, st) => (.error e, st)
              | (.ok _, st) =>
                match statement fuel st with
                | (.error e, st) => (.error e, st)
                | (.ok body, st) =>
                  let body :=
                    match increment with
                    | some inc => Stmt.Block [body, .Expression inc]
                    | none => body
                  let condition := condition.getD (.Literal (.Bool true))
                  let body := Stmt.While condition body
                  let body :=
                    match initializer with
                    | some init => Stmt.Block [init, body]
                    | none => body
                  (.ok body, st)

/-- `Parser::while_statement` (src/parser.rs). -/
def while_statement : Nat → PState → Except LoxError Stmt × PState
  | 0, st => (.error fuelExhausted, st)
  | fuel + 1, st =>
    match st.consume .LeftParen "Expect '(' after while." with
    | (.error e, st) => (.error e, st)
    | (.ok _, st) =>
      match expression fuel st with
      | (.error e, st) => (.error e, st)
      | (.ok condition, st) =>
        match st.consume .RightParen "Expect ')' after while condition." with
        | (.error e, st) => (.error e, st)
        | (.ok _, st) =>
          match statement fuel st with
          | (.error e, st) => (.error e, st)
          | (.ok body, st) => (.ok (.While condition body), st)

/-- `Parser::if_statement` (src/parser.rs). -/
def if_statement : Nat → PState → Except LoxError Stmt × PState
  | 0, st => (.error fuelExhausted, st)
  | fuel + 1, st =>
    match st.consume .LeftParen "Expect '(' after if." with
    | (.error e, st) => (.error e, st)
    | (.ok _, st) =>
      match expression fuel st with
      | (.error e, st) => (.error e, st)
      | (.ok condition, st) =>
        match st.consume .RightParen "Expect ')' after if condition." with
        | (.error e, st) => (.error e, st)
        | (.ok _, st) =>
          match statement fuel st with
          | (.error e, st) => (.error e, st)
          | (.ok then_branch, st) =>
            let (melse, st) := st.match_token_type .Else
            if melse then
              match statement fuel st with
              | (.error e, st) => (.error e, st)
              | (.ok else_branch, st) =>
                (.ok (.If condition then_branch (some else_branch)), st)
            else (.ok (.If condition then_branch none), st)

/-- `Parser::expression_statement` (src/parser.rs). -/
def expression_statement : Nat → PState → Except LoxError Stmt × PState
  | 0, st => (.error fuelExhausted, st)
  | fuel + 1, st =>
    match expression fuel st with
    | (.error e, st) => (.error e, st)
    | (.ok value, st) =>
      match st.consume .Semicolon "Expect ';' after expression." with
      | (.error e, st) => (.error e, st)
      | (.ok _, st) => (.ok (.Expression value), st)

/-- `Parser::function` (src/parser.rs): name, parenthesized parameter list
(capped at 255), block body. -/
def function : Nat → String → PState → Except LoxError Stmt × PState
  | 0, _, st => (.error fuelExhausted, st)
  | fuel + 1, kind, st =>
    match st.consume .Identifier ("Expect " ++ kind ++ " name.") with
    | (.error e, st) => (.error e, st)
    | (.ok name, st) =>
      match st.consume .LeftParen ("Expect '(' after " ++ kind ++ " name.") with
      | (.error e, st) => (.error e, st)
      | (.ok _, st) =>
        match
          if !(st.check .RightParen) then paramsLoop fuel [] st
          else (.ok [], st)
        with
        | (.error e, st) => (.error e, st)
        | (.ok params, st) =>
          match st.consume .RightParen "Expect ')' after parameters." with
          | (.error e, st) => (.error e, st)
          | (.ok _, st) =>
            match
              st.consume .LeftBrace
                ("Expect '\x7b' before " ++ kind ++ " body.")
            with
            | (.error e, st) => (.error e, st)
            | (.ok _, st) =>
              match block fuel st with
              | (.error e, st) => (.error e, st)
              | (.ok body, st) => (.ok (.Function name params body), st)

/-- The parameter-list loop of `Parser::function` (src/parser.rs). -/
def paramsLoop : Nat → List Token → PState → Except LoxError (List Token) × PState
  | 0, _, st => (.error fuelExhausted, st)
  | fuel + 1, params, st =>
    if params.length ≥ 255 then
      (.error (.from_token st.peek "Can't have more than 255 parameters."), st)
    else
      match st.consume .Identifier "Expect parameter name." with
      | (.error e, st) => (.error e, st)
      | (.ok name, st) =>
        let params := params ++ [name]
        let (m, st) := st.match_token_type .Comma
        if m then paramsLoop fuel params st else (.ok params, st)

/-- The statement loop of `Parser::block` (src/parser.rs). -/
def blockLoop : Nat → List Stmt → PState → Except LoxError (List Stmt) × PState
  | 0, _, st => (.error fuelExhausted, st)
  | fuel + 1, statements, st =>
    if !(st.check .RightBrace) && !st.is_at_end then
      match declaration fuel st with
      | (.error e, st) => (.error e, st)
      | (.ok d, st) => blockLoop fuel (statements ++ [d]) st
    else
      match st.consume .RightBrace "Expect '\x7d' after block." with
      | (.error e, st) => (.error e, st)
      | (.ok _, st) => (.ok statements, st)

/-- `Parser::block` (src/parser.rs). -/
def block : Nat → PState → Except LoxError (List Stmt) × PState
  | 0, st => (.error fuelExhausted, st)
  | fuel + 1, st => blockLoop fuel [] st

/-- `Parser::assignment` (src/parser.rs): right-associative assignment whose
target must be a bare variable reference. -/
def assignment : Nat → PState → Except LoxError Expr × PState
  | 0, st => (.error fuelExhausted, st)
  | fuel + 1, st =>
    match logic_or fuel st with
    | (.error e, st) => (.error e, st)
    | (.ok expr, st) =>
      let (m, st) := st.match_token_type .Equal
      if m then
        let equals := st.previous
        match assignment fuel st with
        | (.error e, st) => (.error e, st)
        | (.ok value, st) =>
          match expr with
          | .Variable name => (.ok (.Assign name value), st)
          | _ => (.error (.from_token equals "Invalid assignment target."), st)
      else (.ok expr, st)

/-- `Parser::logic_or` (src/parser.rs).  Note the source uses `if`, not a
loop: at most one `or` operator is consumed at this tier. -/
def logic_or : Nat → PState → Except LoxError Expr × PState
  | 0, st => (.error fuelExhausted, st)
  | fuel + 1, st =>
    match logic_and fuel st with
    | (.error e, st) => (.error e, st)
    | (.ok expr, st) =>
      let (m, st) := st.match_token_type .Or
      if m then
        let operator := st.previous
        match logic_and fuel st with
        | (.error e, st) => (.error e, st)
        | (.ok right, st) => (.ok (.Logical expr operator right), st)
      else (.ok expr, st)

/-- `Parser::logic_and` (src/parser.rs).  Like `logic_or`, an `if`: at most
one `and` operator is consumed at this tier. -/
def logic_and : Nat → PState → Except LoxError Expr × PState
  | 0, st => (.error fuelExhausted, st)
  | fuel + 1, st =>
    match equality fuel st with
    | (.error e, st) => (.error e, st)
    | (.ok expr, st) =>
      let (m, st) := st.match_token_type .And
      if m then
        let operator := st.previous
        match equality fuel st with
        | (.error e, st) => (.error e, st)
        | (.ok right, st) => (.ok (.Logical expr operator right), st)
      else (.ok expr, st)

/-- `Parser::print_statement` (src/parser.rs). -/
def print_statement : Nat → PState → Except LoxError Stmt × PState
  | 0, st => (.error fuelExhausted, st)
  | fuel + 1, st =>
    match expression fuel st with
    | (.error e, st) => (.error e, st)
    | (.ok value, st) =>
      match st.consume .Semicolon "Expect ';' after value." with
      | (.error e, st) => (.error e, st)
      | (.ok _, st) => (.ok (.Print value), st)

/-- `Parser::return_statement` (src/parser.rs). -/
def return_statement : Nat → PState → Except LoxError Stmt × PState
  | 0, st => (.error fuelExhausted, st)
  | fuel + 1, st =>
    let keyword := st.previous
    match
      (if st.check .Semicolon then (.ok none, st)
      else
        match expression fuel st with
        | (.error e, st) => (.error e, st)
        | (.ok v, st) => (.ok (some v), st) :
      Except LoxError (Option Expr) × PState)
    with
    | (.error e, st) => (.error e, st)
    | (.ok (value : Option Expr), st) =>
      match st.consume .Semicolon "Expect ';' after return value." with
      | (.error e, st) => (.error e, st)
      | (.ok _, st) => (.ok (.Return keyword value), st)

/-- `Parser::var_declaration` (src/parser.rs). -/
def var_declaration : Nat → PState → Except LoxError Stmt × PState
  | 0, st => (.error fuelExhausted, st)
  | fuel + 1, st =>
    match st.consume .Identifier "Expect variable name." with
    | (.error e, st) => (.error e, st)
    | (.ok name, st) =>
      let (m, st) := st.match_token_type .Equal
      match
        (if m then
          match expression fuel st with
          | (.error e, st) => (.error e, st)
          | (.ok v, st) => (.ok (some v), st)
        else (.ok none, st) : Except LoxError (Option Expr) × PState)
      with
      | (.error e, st) => (.error e, st)
      | (.ok (initializer : Option Expr), st) =>
        match st.consume .Semicolon "Expect ';' after variable declaration." with
        | (.error e, st) => (.error e, st)
        | (.ok _, st) => (.ok (.Var name initializer), st)

/-- `Parser::equality` (src/parser.rs): `comparison ( ("!=" | "==") comparison )*`. -/
def equality : Nat → PState → Except LoxError Expr × PState
  | 0, st => (.error fuelExhausted, st)
  | fuel + 1, st =>
    match comparison fuel st with
    | (.error e, st) => (.error e, st)
    | (.ok expr, st) => equalityLoop fuel expr st

/-- The operator loop of `Parser::equality` (src/parser.rs). -/
def equalityLoop : Nat → Expr → PState → Except LoxError Expr × PState
  | 0, _, st => (.error fuelExhausted, st)
  | fuel + 1, expr, st =>
    let (m, st) := st.matchTypes [.BangEqual, .EqualEqual]
    if m then
      let operator := st.previous
      match comparison fuel st with
      | (.error e, st) => (.error e, st)
      | (.ok right, st) => equalityLoop fuel (.Binary expr operator right) st
    else (.ok expr, st)

/-- `Parser::comparison` (src/parser.rs): `term ( (">" | ">=" | "<" | "<=") term )*`. -/
def comparison : Nat → PState → Except LoxError Expr × PState
  | 0, st => (.error fuelExhausted, st)
  | fuel + 1, st =>
    match term fuel st with
    | (.error e, st) => (.error e, st)
    | (.ok expr, st) => comparisonLoop fuel expr st

/-- The operator loop of `Parser::comparison` (src/parser.rs). -/
def comparisonLoop : Nat → Expr → PState → Except LoxError Expr × PState
  | 0, _, st => (.error fuelExhausted, st)
  | fuel + 1, expr, st =>
    let (m, st) := st.matchTypes [.Greater, .GreaterEqual, .Less, .LessEqual]
    if m then
      let operator := st.previous
      match term fuel st with
      | (.error e, st) => (.error e, st)
      | (.ok right, st) => comparisonLoop fuel (.Binary expr operator right) st
    else (.ok expr, st)

/-- `Parser::term` (src/parser.rs): `factor ( ("-" | "+") factor )*`. -/
def term : Nat → PState → Except LoxError Expr × PState
  | 0, st => (.error fuelExhausted, st)
  | fuel + 1, st =>
    match factor fuel st with
    | (.error e, st) => (.error e, st)
    | (.ok expr, st) => termLoop fuel expr st

/-- The operator loop of `Parser::term` (src/parser.rs). -/
def termLoop : Nat → Expr → PState → Except LoxError Expr × PState
  | 0, _, st => (.error fuelExhausted, st)
  | fuel + 1, expr, st =>
    let (m, st) := st.matchTypes [.Minus, .Plus]
    if m then
      let operator := st.previous
      match factor fuel st with
      | (.error e, st) => (.error e, st)
      | (.ok right, st) => termLoop fuel (.Binary expr operator right) st
    else (.ok expr, st)

/-- `Parser::factor` (src/parser.rs): `unary ( ("/" | "*") unary )*`. -/
def factor : Nat → PState → Except LoxError Expr × PState
  | 0, st => (.error fuelExhausted, st)
  | fuel + 1, st =>
    match unary fuel st with
    | (.error e, st) => (.error e, st)
    | (.ok expr, st) => factorLoop fuel expr st

/-- The operator loop of `Parser::factor` (src/parser.rs). -/
def factorLoop : Nat → Expr → PState → Except LoxError Expr × PState
  | 0, _, st => (.error fuelExhausted, st)
  | fuel + 1, expr, st =>
    let (m, st) := st.matchTypes [.Slash, .Star]
    if m then
      let operator := st.previous
      match unary fuel st with
      | (.error e, st) => (.error e, st)
      | (.ok right, st) => factorLoop fuel (.Binary expr operator right) st
    else (.ok expr, st)

/-- `Parser::unary` (src/parser.rs): `("!" | "-") unary | call`. -/
def unary : Nat → PState → Except LoxError Expr × PState
  | 0, st => (.error fuelExhausted, st)
  | fuel + 1, st =>
    let (m, st) := st.matchTypes [.Bang, .Minus]
    if m then
      let operator := st.previous
      match unary fuel st with
      | (.error e, st) => (.error e, st)
      | (.ok right, st) => (.ok (.Unary operator right), st)
    else callRule fuel st

/-- `Parser::call` (src/parser.rs): `primary ( "(" arguments? ")" )*`.
(Named `callRule` to avoid clashing with the interpreter's call machinery.) -/
def callRule : Nat → PState → Except LoxError Expr × PState
  | 0, st => (.error fuelExhausted, st)
  | fuel + 1, st =>
    match primary fuel st with
    | (.error e, st) => (.error e, st)
    | (.ok expr, st) => callLoop fuel expr st

/-- The suffix loop of `Parser::call` (src/parser.rs): consume `(` and parse
a call suffix as long as one follows. -/
def callLoop : Nat → Expr → PState → Except LoxError Expr × PState
  | 0, _, st => (.error fuelExhausted, st)
  | fuel + 1, expr, st =>
    let (m, st) := st.match_token_type .LeftParen
    if m then
      match finish_call fuel expr st with
      | (.error e, st) => (.error e, st)
      | (.ok expr, st) => callLoop fuel expr st
    else (.ok expr, st)

/-- `Parser::finish_call` (src/parser.rs). -/
def finish_call : Nat → Expr → PState → Except LoxError Expr × PState
  | 0, _, st => (.error fuelExhausted, st)
  | fuel + 1, callee, st =>
    match argumentsRule fuel st with
    | (.error e, st) => (.error e, st)
    | (.ok args, st) =>
      match st.consume .RightParen "Expect ')' after arguments." with
      | (.error e, st) => (.error e, st)
      | (.ok paren, st) => (.ok (.Call callee paren args), st)

/-- `Parser::arguments` (src/parser.rs): a possibly empty comma-separated
argument list capped at 255 entries. -/
def argumentsRule : Nat → PState → Except LoxError (List Expr) × PState
  | 0, st => (.error fuelExhausted, st)
  | fuel + 1, st =>
    if !(st.check .RightParen) then argsLoop fuel [] st
    else (.ok [], st)

/-- The argument loop of `Parser::arguments` (src/parser.rs). -/
def argsLoop : Nat → List Expr → PState → Except LoxError (List Expr) × PState
  | 0, _, st => (.error fuelExhausted, st)
  | fuel + 1, args, st =>
    if args.length ≥ 255 then
      (.error (.from_token st.peek "Can't have more than 255 arguments."), st)
    else
      match expression fuel st with
      | (.error e, st) => (.error e, st)
      | (.ok a, st) =>
        let args := args ++ [a]
        let (m, st) := st.match_token_type .Comma
        if m then argsLoop fuel args st else (.ok args, st)

/-- `Parser::primary` (src/parser.rs). -/
def primary : Nat → PState → Except LoxError Expr × PState
  | 0, st => (.error fuelExhausted, st)
  | fuel + 1, st =>
    let (m, st) := st.match_token_type .False
    if m then (.ok (.Literal (.Bool false)), st) else
    let (m, st) := st.match_token_type .True
    if m then (.ok (.Literal (.Bool true)), st) else
    let (m, st) := st.match_token_type .Nil
    if m then (.ok (.Literal .Nil), st) else
    let (m, st) := st.matchTypes [.Number, .String]
    if m then
      -- `self.previous().literal().unwrap()`: scanner-produced `Number` and
      -- `String` tokens always carry their literal; the panicking path is
      -- modelled with `unreachablePanic`.
      match st.previous.literal with
      | some v => (.ok (.Literal v), st)
      | none => (.error unreachablePanic, st)
    else
    let (m, st) := st.match_token_type .Identifier
    if m then (.ok (.Variable st.previous), st) else
    let (m, st) := st.match_token_type .LeftParen
    if m then
      match expression fuel st with
      | (.error e, st) => (.error e, st)
      | (.ok expr, st) =>
        match st.consume .RightParen "Expect ')' after expression." with
        | (.error e, st) => (.error e, st)
        | (.ok _, st) => (.ok (.Grouping expr), st)
    else (.error (.from_token st.peek "Expect expression."), st)

/-- The statement loop of `Parser::parse` (src/parser.rs):
`while !is_at_end { statements.push(declaration()?) }` — note the `?`
propagates the first declaration error out of `parse`. -/
def parseLoop : Nat → List Stmt → PState → Except LoxError (List Stmt) × PState
  | 0, _, st => (.error fuelExhausted, st)
  | fuel + 1, statements, st =>
    if !st.is_at_end then
      match declaration fuel st with
      | (.error e, st) => (.error e, st)
      | (.ok d, st) => parseLoop fuel (statements ++ [d]) st
    else (.ok statements, st)

end

/-- `Parser::parse` (src/parser.rs): parse a whole token sequence; the parser
state is consumed. -/
def parse (fuel : Nat) (tokens : List Token) : Except LoxError (List Stmt) :=
  (parseLoop fuel [] ⟨tokens, 0⟩).1

/-- `main::run` (src/main.rs), modelled from the token stage onward: parse,
then interpret with a fresh environment.  The `Scanner` stage is not
modelled; a source text is represented by its token sequence, and the
properties proved below are decided by the later stages. -/
def run (fuel : Nat) (tokens : List Token) (out : Output) :
    Except LoxError String × Output :=
  match parse fuel tokens with
  | .error e => (.error e, out)
  | .ok stmts => interpret fuel stmts out

/-- `main::run_file` (src/main.rs): run one file, discarding the returned
string; any `LoxError` from `run` propagates through the `?`.  (The file
read itself is outside the model: a file is its token sequence.) -/
def run_file (fuel : Nat) (tokens : List Token) (out : Output) :
    Except LoxError Unit × Output :=
  match run fuel tokens out with
  | (.error e, o) => (.error e, o)
  | (.ok _, o) => (.ok (), o)

/-- The `batch` arm of `main` (src/main.rs):
`for file in args { eprintln!(...); run_file(&file)? }` — the files are run
in order and the `?` propagates the first failure out of the loop.  (The
per-file stderr header is not modelled.) -/
def batch (fuel : Nat) : List (List Token) → Output → Except LoxError Unit × Output
  | [], out => (.ok (), out)
  | f :: rest, out =>
    match run_file fuel f out with
    | (.error e, o) => (.error e, o)
    | (.ok _, o) => batch fuel rest o

/-! ### Infrastructure for the same-tier operator-chain theorem (C5)

One-step unfolding equations for the parser functions (Lean's automatic
equation lemmas are prohibitively expensive for this mutual block; each
lemma restates one defining equation verbatim, proved by `rfl`), followed by
atom/loop lemmas that evaluate the parser symbolically over an
operator/operand token window of arbitrary length. -/

/-! ### One-step unfolding equations for the expression-tier parser functions

The parser's mutual block is large enough that Lean's automatic equation
lemmas are prohibitively expensive to generate; each lemma below restates one
defining equation verbatim and is proved by `rfl`. -/

theorem expression_succ (fuel : Nat) (st : PState) :
    expression (fuel + 1) st = assignment fuel st := rfl

theorem assignment_succ (fuel : Nat) (st : PState) :
    assignment (fuel + 1) st =
      (match logic_or fuel st with
      | (.error e, st) => (.error e, st)
      | (.ok expr, st) =>
        let (m, st) := st.match_token_type .Equal
        if m then
          let equals := st.previous
          match assignment fuel st with
          | (.error e, st) => (.error e, st)
          | (.ok value, st) =>
            match expr with
            | .Variable name => (.ok (.Assign name value), st)
            | _ => (.error (.from_token equals "Invalid assignment target."), st)
        else (.ok expr, st)) := rfl

theorem logic_or_succ (fuel : Nat) (st : PState) :
    logic_or (fuel + 1) st =
      (match logic_and fuel st with
      | (.error e, st) => (.error e, st)
      | (.ok expr, st) =>
        let (m, st) := st.match_token_type .Or
        if m then
          let operator := st.previous
          match logic_and fuel st with
          | (.error e, st) => (.error e, st)
          | (.ok right, st) => (.ok (.Logical expr operator right), st)
        else (.ok expr, st)) := rfl

theorem logic_and_succ (fuel : Nat) (st : PState) :
    logic_and (fuel + 1) st =
      (match equality fuel st with
      | (.error e, st) => (.error e, st)
      | (.ok expr, st) =>
        let (m, st) := st.match_token_type .And
        if m then
          let operator := st.previous
          match equality fuel st with
          | (.error e, st) => (.error e, st)
          | (.ok right, st) => (.ok (.Logical expr operator right), st)
        else (.ok expr, st)) := rfl

theorem equality_succ (fuel : Nat) (st : PState) :
    equality (fuel + 1) st =
      (match comparison fuel st with
      | (.error e, st) => (.error e, st)
      | (.ok expr, st) => equalityLoop fuel expr st) := rfl

theorem equalityLoop_succ (fuel : Nat) (expr : Expr) (st : PState) :
    equalityLoop (fuel + 1) expr st =
      (let (m, st) := st.matchTypes [.BangEqual, .EqualEqual]
      if m then
        let operator := st.previous
        match comparison fuel st with
        | (.error e, st) => (.error e, st)
        | (.ok right, st) => equalityLoop fuel (.Binary expr operator right) st
      else (.ok expr, st)) := rfl

theorem comparison_succ (fuel : Nat) (st : PState) :
    comparison (fuel + 1) st =
      (match term fuel st with
      | (.error e, st) => (.error e, st)
      | (.ok expr, st) => comparisonLoop fuel expr st) := rfl

theorem comparisonLoop_succ (fuel : Nat) (expr : Expr) (st : PState) :
    comparisonLoop (fuel + 1) expr st =
      (let (m, st) := st.matchTypes [.Greater, .GreaterEqual, .Less, .LessEqual]
      if m then
        let operator := st.previous
        match term fuel st with
        | (.error e, st) => (.error e, st)
        | (.ok right, st) => comparisonLoop fuel (.Binary expr operator right) st
      else (.ok expr, st)) := rfl

theorem term_succ (fuel : Nat) (st : PState) :
    term (fuel + 1) st =
      (match factor fuel st with
      | (.error e, st) => (.error e, st)
      | (.ok expr, st) => termLoop fuel expr st) := rfl

theorem termLoop_succ (fuel : Nat) (expr : Expr) (st : PState) :
    termLoop (fuel + 1) expr st =
      (let (m, st) := st.matchTypes [.Minus, .Plus]
      if m then
        let operator := st.previous
        match factor fuel st with
        | (.error e, st) => (.error e, st)
        | (.ok right, st) => termLoop fuel (.Binary expr operator right) st
      else (.ok expr, st)) := rfl

theorem factor_succ (fuel : Nat) (st : PState) :
    factor (fuel + 1) st =
      (match unary fuel st with
      | (.error e, st) => (.error e, st)
      | (.ok expr, st) => factorLoop fuel expr st) := rfl

theorem factorLoop_succ (fuel : Nat) (expr : Expr) (st : PState) :
    factorLoop (fuel + 1) expr st =
      (let (m, st) := st.matchTypes [.Slash, .Star]
      if m then
        let operator := st.previous
        match unary fuel st with
        | (.error e, st) => (.error e, st)
        | (.ok right, st) => factorLoop fuel (.Binary expr operator right) st
      else (.ok expr, st)) := rfl

theorem unary_succ (fuel : Nat) (st : PState) :
    unary (fuel + 1) st =
      (let (m, st) := st.matchTypes [.Bang, .Minus]
      if m then
        let operator := st.previous
        match unary fuel st with
        | (.error e, st) => (.error e, st)
        | (.ok right, st) => (.ok (.Unary operator right), st)
      else callRule fuel st) := rfl

theorem callRule_succ (fuel : Nat) (st : PState) :
    callRule (fuel + 1) st =
      (match primary fuel st with
      | (.error e, st) => (.error e, st)
      | (.ok expr, st) => callLoop fuel expr st) := rfl

theorem callLoop_succ (fuel : Nat) (expr : Expr) (st : PState) :
    callLoop (fuel + 1) expr st =
      (let (m, st) := st.match_token_type .LeftParen
      if m then
        match finish_call fuel expr st with
        | (.error e, st) => (.error e, st)
        | (.ok expr, st) => callLoop fuel expr st
      else (.ok expr, st)) := rfl

theorem primary_succ (fuel : Nat) (st : PState) :
    primary (fuel + 1) st =
      (let (m, st) := st.match_token_type .False
      if m then (.ok (.Literal (.Bool false)), st) else
      let (m, st) := st.match_token_type .True
      if m then (.ok (.Literal (.Bool true)), st) else
      let (m, st) := st.match_token_type .Nil
      if m then (.ok (.Literal .Nil), st) else
      let (m, st) := st.matchTypes [.Number, .String]
      if m then
        match st.previous.literal with
        | some v => (.ok (.Literal v), st)
        | none => (.error unreachablePanic, st)
      else
      let (m, st) := st.match_token_type .Identifier
      if m then (.ok (.Variable st.previous), st) else
      let (m, st) := st.match_token_type .LeftParen
      if m then
        match expression fuel st with
        | (.error e, st) => (.error e, st)
        | (.ok expr, st) =>
          match st.consume .RightParen "Expect ')' after expression." with
          | (.error e, st) => (.error e, st)
          | (.ok _, st) => (.ok (.Grouping expr), st)
      else (.error (.from_token st.peek "Expect expression."), st)) := rfl


/-- A number token carrying the value `q` (lexeme and position immaterial to
parsing). -/
def numTok (q : Rat) : Token := .mk .Number "n" (some (.Number q)) 1 0

/-- An operator token of the given kind. -/
def opTok (tt : TokenType) : Token := .mk tt "o" none 1 0

theorem check_of_get (toks : List Token) (i : Nat) (tok : Token)
    (hi : toks.get? i = some tok) (tt : TokenType) :
    PState.check ⟨toks, i⟩ tt = (tok.token_type == tt) := by
  rw [List.get?_eq_getElem?] at hi
  simp [PState.check, PState.peek, hi]

theorem advance2_of_get (toks : List Token) (i : Nat) (tok : Token)
    (hi : toks.get? i = some tok) (hne : (tok.token_type == .Eof) = false) :
    (PState.advance ⟨toks, i⟩).2 = ⟨toks, i + 1⟩ := by
  rw [List.get?_eq_getElem?] at hi
  simp [PState.advance, PState.is_at_end, PState.peek, hi, hne]

theorem match_token_type_of_get (toks : List Token) (i : Nat) (tok : Token)
    (hi : toks.get? i = some tok) (hne : (tok.token_type == .Eof) = false)
    (tt : TokenType) :
    PState.match_token_type ⟨toks, i⟩ tt
      = (if tok.token_type == tt then (true, ⟨toks, i + 1⟩)
         else (false, ⟨toks, i⟩)) := by
  simp only [PState.match_token_type, check_of_get toks i tok hi tt,
    advance2_of_get toks i tok hi hne]

theorem matchTypes_of_get (toks : List Token) (i : Nat) (tok : Token)
    (hi : toks.get? i = some tok) (hne : (tok.token_type == .Eof) = false) :
    ∀ l : List TokenType,
    PState.matchTypes ⟨toks, i⟩ l
      = (if l.any (fun t => tok.token_type == t) then (true, ⟨toks, i + 1⟩)
         else (false, ⟨toks, i⟩)) := by
  intro l
  induction l with
  | nil => simp [PState.matchTypes]
  | cons t rest ih =>
    simp only [PState.matchTypes, check_of_get toks i tok hi t,
      advance2_of_get toks i tok hi hne, ih, List.any_cons]
    by_cases h : (tok.token_type == t) = true
    · simp [h]
    · simp [h]

theorem previous_of_get (toks : List Token) (i : Nat) (tok : Token)
    (hi : toks.get? i = some tok) :
    PState.previous ⟨toks, i + 1⟩ = tok := by
  rw [List.get?_eq_getElem?] at hi
  simp [PState.previous, hi]

section

attribute [local irreducible] expression assignment logic_or logic_and
  equality equalityLoop comparison comparisonLoop term termLoop factor
  factorLoop unary callRule callLoop primary finish_call argumentsRule
  argsLoop

theorem primary_number (fuel : Nat) (toks : List Token) (i : Nat) (q : Rat)
    (hi : toks.get? i = some (numTok q)) :
    primary (fuel + 1) ⟨toks, i⟩
      = (.ok (.Literal (.Number q)), ⟨toks, i + 1⟩) := by
  rw [primary_succ]
  simp [match_token_type_of_get toks i (numTok q) hi rfl,
    matchTypes_of_get toks i (numTok q) hi rfl,
    previous_of_get toks i (numTok q) hi, numTok, Token.token_type,
    Token.literal]

theorem callLoop_noparen (fuel : Nat) (toks : List Token) (i : Nat)
    (expr : Expr) (nt : Token) (hi : toks.get? i = some nt)
    (h1 : (nt.token_type == .LeftParen) = false) :
    callLoop (fuel + 1) expr ⟨toks, i⟩ = (.ok expr, ⟨toks, i⟩) := by
  rw [callLoop_succ]
  simp [PState.match_token_type, check_of_get toks i nt hi, h1]

theorem unary_number (fuel : Nat) (toks : List Token) (i : Nat) (q : Rat)
    (nt : Token) (hi : toks.get? i = some (numTok q))
    (hnt : toks.get? (i + 1) = some nt)
    (h1 : (nt.token_type == .LeftParen) = false) :
    unary (fuel + 1 + 1 + 1) ⟨toks, i⟩
      = (.ok (.Literal (.Number q)), ⟨toks, i + 1⟩) := by
  rw [unary_succ]
  simp [matchTypes_of_get toks i (numTok q) hi rfl, numTok, Token.token_type,
    callRule_succ, primary_number fuel toks i q hi,
    callLoop_noparen fuel toks (i + 1) _ nt hnt h1]

theorem factorLoop_stop (fuel : Nat) (toks : List Token) (i : Nat)
    (expr : Expr) (nt : Token) (hi : toks.get? i = some nt)
    (h2 : (nt.token_type == .Slash) = false)
    (h3 : (nt.token_type == .Star) = false) :
    factorLoop (fuel + 1) expr ⟨toks, i⟩ = (.ok expr, ⟨toks, i⟩) := by
  rw [factorLoop_succ]
  simp [PState.matchTypes, check_of_get toks i nt hi, h2, h3]

theorem termLoop_stop (fuel : Nat) (toks : List Token) (i : Nat)
    (expr : Expr) (nt : Token) (hi : toks.get? i = some nt)
    (h4 : (nt.token_type == .Minus) = false)
    (h5 : (nt.token_type == .Plus) = false) :
    termLoop (fuel + 1) expr ⟨toks, i⟩ = (.ok expr, ⟨toks, i⟩) := by
  rw [termLoop_succ]
  simp [PState.matchTypes, check_of_get toks i nt hi, h4, h5]

theorem comparisonLoop_stop (fuel : Nat) (toks : List Token) (i : Nat)
    (expr : Expr) (nt : Token) (hi : toks.get? i = some nt)
    (h6 : (nt.token_type == .Greater) = false)
    (h7 : (nt.token_type == .GreaterEqual) = false)
    (h8 : (nt.token_type == .Less) = false)
    (h9 : (nt.token_type == .LessEqual) = false) :
    comparisonLoop (fuel + 1) expr ⟨toks, i⟩ = (.ok expr, ⟨toks, i⟩) := by
  rw [comparisonLoop_succ]
  simp [PState.matchTypes, check_of_get toks i nt hi, h6, h7, h8, h9]

theorem equalityLoop_stop (fuel : Nat) (toks : List Token) (i : Nat)
    (expr : Expr) (nt : Token) (hi : toks.get? i = some nt)
    (ha : (nt.token_type == .BangEqual) = false)
    (hb : (nt.token_type == .EqualEqual) = false) :
    equalityLoop (fuel + 1) expr ⟨toks, i⟩ = (.ok expr, ⟨toks, i⟩) := by
  rw [equalityLoop_succ]
  simp [PState.matchTypes, check_of_get toks i nt hi, ha, hb]

theorem factor_number (fuel : Nat) (toks : List Token) (i : Nat) (q : Rat)
    (nt : Token) (hi : toks.get? i = some (numTok q))
    (hnt : toks.get? (i + 1) = some nt)
    (h1 : (nt.token_type == .LeftParen) = false)
    (h2 : (nt.token_type == .Slash) = false)
    (h3 : (nt.token_type == .Star) = false) :
    factor (fuel + 1 + 1 + 1 + 1) ⟨toks, i⟩
      = (.ok (.Literal (.Number q)), ⟨toks, i + 1⟩) := by
  rw [factor_succ]
  simp [unary_number fuel toks i q nt hi hnt h1,
    factorLoop_stop (fuel + 1 + 1) toks (i + 1) _ nt hnt h2 h3]

theorem term_number (fuel : Nat) (toks : List Token) (i : Nat) (q : Rat)
    (nt : Token) (hi : toks.get? i = some (numTok q))
    (hnt : toks.get? (i + 1) = some nt)
    (h1 : (nt.token_type == .LeftParen) = false)
    (h2 : (nt.token_type == .Slash) = false)
    (h3 : (nt.token_type == .Star) = false)
    (h4 : (nt.token_type == .Minus) = false)
    (h5 : (nt.token_type == .Plus) = false) :
    term (fuel + 1 + 1 + 1 + 1 + 1) ⟨toks, i⟩
      = (.ok (.Literal (.Number q)), ⟨toks, i + 1⟩) := by
  rw [term_succ]
  simp [factor_number fuel toks i q nt hi hnt h1 h2 h3,
    termLoop_stop (fuel + 1 + 1 + 1) toks (i + 1) _ nt hnt h4 h5]

theorem comparison_number (fuel : Nat) (toks : List Token) (i : Nat) (q : Rat)
    (nt : Token) (hi : toks.get? i = some (numTok q))
    (hnt : toks.get? (i + 1) = some nt)
    (h1 : (nt.token_type == .LeftParen) = false)
    (h2 : (nt.token_type == .Slash) = false)
    (h3 : (nt.token_type == .Star) = false)
    (h4 : (nt.token_type == .Minus) = false)
    (h5 : (nt.token_type == .Plus) = false)
    (h6 : (nt.token_type == .Greater) = false)
    (h7 : (nt.token_type == .GreaterEqual) = false)
    (h8 : (nt.token_type == .Less) = false)
    (h9 : (nt.token_type == .LessEqual) = false) :
    comparison (fuel + 1 + 1 + 1 + 1 + 1 + 1) ⟨toks, i⟩
      = (.ok (.Literal (.Number q)), ⟨toks, i + 1⟩) := by
  rw [comparison_succ]
  simp [term_number fuel toks i q nt hi hnt h1 h2 h3 h4 h5,
    comparisonLoop_stop (fuel + 1 + 1 + 1 + 1) toks (i + 1) _ nt hnt h6 h7 h8 h9]

end

/-- The token window of a same-tier chain tail: at position `i` the tokens
are `op₁ num₁ op₂ num₂ …`, followed by the `stop` token. -/
def ChainWindow (toks : List Token) : Nat → List (TokenType × Rat) → Token → Prop
  | i, [], stop => toks.get? i = some stop
  | i, (op, q) :: rest, stop =>
      toks.get? i = some (opTok op) ∧ toks.get? (i + 1) = some (numTok q) ∧
      ChainWindow toks (i + 2) rest stop

/-- The stop token of a chain begins no further binary/call syntax: its kind
is none of the operator kinds consumed by the expression tiers. -/
def stopsExpr (t : Token) : Prop :=
  (t.token_type == TokenType.LeftParen) = false ∧
  (t.token_type == TokenType.Slash) = false ∧
  (t.token_type == TokenType.Star) = false ∧
  (t.token_type == TokenType.Minus) = false ∧
  (t.token_type == TokenType.Plus) = false ∧
  (t.token_type == TokenType.Greater) = false ∧
  (t.token_type == TokenType.GreaterEqual) = false ∧
  (t.token_type == TokenType.Less) = false ∧
  (t.token_type == TokenType.LessEqual) = false ∧
  (t.token_type == TokenType.BangEqual) = false ∧
  (t.token_type == TokenType.EqualEqual) = false ∧
  (t.token_type == TokenType.And) = false ∧
  (t.token_type == TokenType.Or) = false ∧
  (t.token_type == TokenType.Equal) = false

/-- The left-nested AST of a same-tier chain: each loop iteration wraps the
accumulator as the *left* operand of a new `Binary` node. -/
def leftNested (a : Rat) (ops : List (TokenType × Rat)) : Expr :=
  ops.foldl (fun e p => .Binary e (opTok p.1) (.Literal (.Number p.2)))
    (.Literal (.Number a))

theorem chainWindow_first (toks : List Token) (i : Nat)
    (ops : List (TokenType × Rat)) (stop : Token)
    (hw : ChainWindow toks i ops stop) :
    ∃ nt, toks.get? i = some nt ∧
      ((ops = [] ∧ nt = stop) ∨ ∃ p rest, ops = p :: rest ∧ nt = opTok p.1) := by
  match ops, hw with
  | [], hw => exact ⟨stop, hw, Or.inl ⟨rfl, rfl⟩⟩
  | (op, q) :: rest, ⟨h1, _, _⟩ =>
    exact ⟨opTok op, h1, Or.inr ⟨(op, q), rest, rfl, rfl⟩⟩

section

attribute [local irreducible] expression assignment logic_or logic_and
  equality equalityLoop comparison comparisonLoop term termLoop factor
  factorLoop unary callRule callLoop primary finish_call argumentsRule
  argsLoop

theorem factorLoop_chain :
    ∀ (ops : List (TokenType × Rat)) (fuel : Nat) (toks : List Token)
      (i : Nat) (expr : Expr) (stop : Token),
    (∀ p ∈ ops, p.1 = TokenType.Slash ∨ p.1 = TokenType.Star) →
    ChainWindow toks i ops stop → stopsExpr stop →
    factorLoop (8 * ops.length + fuel + 1) expr ⟨toks, i⟩
      = (.ok (ops.foldl
            (fun e p => .Binary e (opTok p.1) (.Literal (.Number p.2))) expr),
         ⟨toks, i + 2 * ops.length⟩) := by
  intro ops
  induction ops with
  | nil =>
    intro fuel toks i expr stop hops hw hstop
    obtain ⟨hLP, hSl, hSt, _⟩ := hstop
    simp only [List.length_nil, Nat.mul_zero, Nat.zero_add, Nat.add_zero,
      List.foldl_nil]
    exact factorLoop_stop fuel toks i expr stop hw hSl hSt
  | cons p rest ih =>
    obtain ⟨op, q⟩ := p
    intro fuel toks i expr stop hops hw hstop
    obtain ⟨hw1, hw2, hw3⟩ := hw
    have hop : op = TokenType.Slash ∨ op = TokenType.Star := by
      simpa using hops (op, q) (by simp)
    -- the token after the operand: the next operator, or the stop token
    obtain ⟨nt, hnt, hcase⟩ := chainWindow_first toks (i + 2) rest stop hw3
    have hntLP : (nt.token_type == TokenType.LeftParen) = false := by
      rcases hcase with ⟨_, rfl⟩ | ⟨p2, r2, hr, rfl⟩
      · exact hstop.1
      · have hp2 : p2.1 = TokenType.Slash ∨ p2.1 = TokenType.Star := by
          simpa using hops p2 (by simp [hr])
        rcases hp2 with h | h <;> simp [h, opTok, Token.token_type]
    -- one loop iteration
    have hfuel : 8 * ((op, q) :: rest).length + fuel + 1
        = (8 * rest.length + fuel + 8) + 1 := by
      simp [List.length_cons]; omega
    rw [hfuel, factorLoop_succ,
      matchTypes_of_get toks i (opTok op) hw1
        (by rcases hop with rfl | rfl <;> rfl)]
    have hopAny : ([TokenType.Slash, TokenType.Star].any
        (fun t => (opTok op).token_type == t)) = true := by
      rcases hop with rfl | rfl <;> rfl
    rw [hopAny]
    simp only [if_true]
    rw [previous_of_get toks i (opTok op) hw1]
    have hun : unary (8 * rest.length + fuel + 5 + 1 + 1 + 1) ⟨toks, i + 1⟩
        = (.ok (.Literal (.Number q)), ⟨toks, i + 1 + 1⟩) :=
      unary_number (8 * rest.length + fuel + 5) toks (i + 1) q nt
        (by simpa using hw2) (by simpa using hnt) hntLP
    rw [show (8 * rest.length + fuel + 8)
        = (8 * rest.length + fuel + 5 + 1 + 1 + 1) from by omega] at *
    rw [hun]
    have hih := ih (fuel + 7) toks (i + 2) (.Binary expr (opTok op) (.Literal (.Number q))) stop
      (fun p hp => hops p (by simp [hp])) hw3 hstop
    rw [show i + 1 + 1 = i + 2 from rfl]
    rw [show (8 * rest.length + fuel + 5 + 1 + 1 + 1)
        = (8 * rest.length + (fuel + 7) + 1) from by omega]
    simp only []
    rw [hih]
    rw [show i + 2 + 2 * rest.length = i + 2 * ((op, q) :: rest).length from by
      simp [List.length_cons]; omega]
    simp [List.foldl_cons]


theorem termLoop_chain :
    ∀ (ops : List (TokenType × Rat)) (fuel : Nat) (toks : List Token)
      (i : Nat) (expr : Expr) (stop : Token),
    (∀ p ∈ ops, p.1 = TokenType.Minus ∨ p.1 = TokenType.Plus) →
    ChainWindow toks i ops stop → stopsExpr stop →
    termLoop (8 * ops.length + fuel + 1) expr ⟨toks, i⟩
      = (.ok (ops.foldl
            (fun e p => .Binary e (opTok p.1) (.Literal (.Number p.2))) expr),
         ⟨toks, i + 2 * ops.length⟩) := by
  intro ops
  induction ops with
  | nil =>
    intro fuel toks i expr stop hops hw hstop
    obtain ⟨hLP, hSl, hSt, hMi, hPl, hGt, hGe, hLt, hLe, hBE, hEE, _⟩ := hstop
    simp only [List.length_nil, Nat.mul_zero, Nat.zero_add, Nat.add_zero,
      List.foldl_nil]
    exact termLoop_stop fuel toks i expr stop hw hMi hPl
  | cons p rest ih =>
    obtain ⟨op, q⟩ := p
    intro fuel toks i expr stop hops hw hstop
    obtain ⟨hw1, hw2, hw3⟩ := hw
    have hop : op = TokenType.Minus ∨ op = TokenType.Plus := by
      simpa using hops (op, q) (by simp)
    obtain ⟨nt, hnt, hcase⟩ := chainWindow_first toks (i + 2) rest stop hw3
    have hntLP : (nt.token_type == TokenType.LeftParen) = false := by
      rcases hcase with ⟨_, rfl⟩ | ⟨p2, r2, hr, rfl⟩
      · exact hstop.1
      · have hp2 := hops p2 (by simp [hr])
        rcases hp2 with h | h <;> simp [h, opTok, Token.token_type]
    have hntSl : (nt.token_type == TokenType.Slash) = false := by
      rcases hcase with ⟨_, rfl⟩ | ⟨p2, r2, hr, rfl⟩
      · exact hstop.2.1
      · have hp2 := hops p2 (by simp [hr])
        rcases hp2 with h | h <;> simp [h, opTok, Token.token_type]
    have hntSt : (nt.token_type == TokenType.Star) = false := by
      rcases hcase with ⟨_, rfl⟩ | ⟨p2, r2, hr, rfl⟩
      · exact hstop.2.2.1
      · have hp2 := hops p2 (by simp [hr])
        rcases hp2 with h | h <;> simp [h, opTok, Token.token_type]
    have hfuel : 8 * ((op, q) :: rest).length + fuel + 1
        = (8 * rest.length + fuel + 8) + 1 := by
      simp [List.length_cons]; omega
    rw [hfuel, termLoop_succ,
      matchTypes_of_get toks i (opTok op) hw1
        (by rcases hop with rfl | rfl <;> rfl)]
    have hopAny : ([TokenType.Minus, TokenType.Plus].any
        (fun t => (opTok op).token_type == t)) = true := by
      rcases hop with rfl | rfl <;> rfl
    rw [hopAny]
    simp only [if_true]
    rw [previous_of_get toks i (opTok op) hw1]
    have hun : factor (8 * rest.length + fuel + 4 + 1 + 1 + 1 + 1) ⟨toks, i + 1⟩
        = (.ok (.Literal (.Number q)), ⟨toks, i + 1 + 1⟩) :=
      factor_number (8 * rest.length + fuel + 4) toks (i + 1) q nt
        (by simpa using hw2) (by simpa using hnt) hntLP hntSl hntSt
    rw [show (8 * rest.length + fuel + 8)
        = (8 * rest.length + fuel + 4 + 1 + 1 + 1 + 1) from by omega] at *
    rw [hun]
    have hih := ih (fuel + 7) toks (i + 2)
      (.Binary expr (opTok op) (.Literal (.Number q))) stop
      (fun p hp => hops p (by simp [hp])) hw3 hstop
    rw [show i + 1 + 1 = i + 2 from rfl]
    rw [show (8 * rest.length + fuel + 4 + 1 + 1 + 1 + 1)
        = (8 * rest.length + (fuel + 7) + 1) from by omega]
    simp only []
    rw [hih]
    rw [show i + 2 + 2 * rest.length = i + 2 * ((op, q) :: rest).length from by
      simp [List.length_cons]; omega]
    simp [List.foldl_cons]


theorem comparisonLoop_chain :
    ∀ (ops : List (TokenType × Rat)) (fuel : Nat) (toks : List Token)
      (i : Nat) (expr : Expr) (stop : Token),
    (∀ p ∈ ops, p.1 = TokenType.Greater ∨ p.1 = TokenType.GreaterEqual ∨ p.1 = TokenType.Less ∨ p.1 = TokenType.LessEqual) →
    ChainWindow toks i ops stop → stopsExpr stop →
    comparisonLoop (8 * ops.length + fuel + 1) expr ⟨toks, i⟩
      = (.ok (ops.foldl
            (fun e p => .Binary e (opTok p.1) (.Literal (.Number p.2))) expr),
         ⟨toks, i + 2 * ops.length⟩) := by
  intro ops
  induction ops with
  | nil =>
    intro fuel toks i expr stop hops hw hstop
    obtain ⟨hLP, hSl, hSt, hMi, hPl, hGt, hGe, hLt, hLe, hBE, hEE, _⟩ := hstop
    simp only [List.length_nil, Nat.mul_zero, Nat.zero_add, Nat.add_zero,
      List.foldl_nil]
    exact comparisonLoop_stop fuel toks i expr stop hw hGt hGe hLt hLe
  | cons p rest ih =>
    obtain ⟨op, q⟩ := p
    intro fuel toks i expr stop hops hw hstop
    obtain ⟨hw1, hw2, hw3⟩ := hw
    have hop : op = TokenType.Greater ∨ op = TokenType.GreaterEqual ∨ op = TokenType.Less ∨ op = TokenType.LessEqual := by
      simpa using hops (op, q) (by simp)
    obtain ⟨nt, hnt, hcase⟩ := chainWindow_first toks (i + 2) rest stop hw3
    have hntLP : (nt.token_type == TokenType.LeftParen) = false := by
      rcases hcase with ⟨_, rfl⟩ | ⟨p2, r2, hr, rfl⟩
      · exact hstop.1
      · have hp2 := hops p2 (by simp [hr])
        rcases hp2 with h | h | h | h <;> simp [h, opTok, Token.token_type]
    have hntSl : (nt.token_type == TokenType.Slash) = false := by
      rcases hcase with ⟨_, rfl⟩ | ⟨p2, r2, hr, rfl⟩
      · exact hstop.2.1
      · have hp2 := hops p2 (by simp [hr])
        rcases hp2 with h | h | h | h <;> simp [h, opTok, Token.token_type]
    have hntSt : (nt.token_type == TokenType.Star) = false := by
      rcases hcase with ⟨_, rfl⟩ | ⟨p2, r2, hr, rfl⟩
      · exact hstop.2.2.1
      · have hp2 := hops p2 (by simp [hr])
        rcases hp2 with h | h | h | h <;> simp [h, opTok, Token.token_type]
    have hntMi : (nt.token_type == TokenType.Minus) = false := by
      rcases hcase with ⟨_, rfl⟩ | ⟨p2, r2, hr, rfl⟩
      · exact hstop.2.2.2.1
      · have hp2 := hops p2 (by simp [hr])
        rcases hp2 with h | h | h | h <;> simp [h, opTok, Token.token_type]
    have hntPl : (nt.token_type == TokenType.Plus) = false := by
      rcases hcase with ⟨_, rfl⟩ | ⟨p2, r2, hr, rfl⟩
      · exact hstop.2.2.2.2.1
      · have hp2 := hops p2 (by simp [hr])
        rcases hp2 with h | h | h | h <;> simp [h, opTok, Token.token_type]
    have hfuel : 8 * ((op, q) :: rest).length + fuel + 1
        = (8 * rest.length + fuel + 8) + 1 := by
      simp [List.length_cons]; omega
    rw [hfuel, comparisonLoop_succ,
      matchTypes_of_get toks i (opTok op) hw1
        (by rcases hop with rfl | rfl | rfl | rfl <;> rfl)]
    have hopAny : ([TokenType.Greater, TokenType.GreaterEqual, TokenType.Less, TokenType.LessEqual].any
        (fun t => (opTok op).token_type == t)) = true := by
      rcases hop with rfl | rfl | rfl | rfl <;> rfl
    rw [hopAny]
    simp only [if_true]
    rw [previous_of_get toks i (opTok op) hw1]
    have hun : term (8 * rest.length + fuel + 3 + 1 + 1 + 1 + 1 + 1) ⟨toks, i + 1⟩
        = (.ok (.Literal (.Number q)), ⟨toks, i + 1 + 1⟩) :=
      term_number (8 * rest.length + fuel + 3) toks (i + 1) q nt
        (by simpa using hw2) (by simpa using hnt) hntLP hntSl hntSt hntMi hntPl
    rw [show (8 * rest.length + fuel + 8)
        = (8 * rest.length + fuel + 3 + 1 + 1 + 1 + 1 + 1) from by omega] at *
    rw [hun]
    have hih := ih (fuel + 7) toks (i + 2)
      (.Binary expr (opTok op) (.Literal (.Number q))) stop
      (fun p hp => hops p (by simp [hp])) hw3 hstop
    rw [show i + 1 + 1 = i + 2 from rfl]
    rw [show (8 * rest.length + fuel + 3 + 1 + 1 + 1 + 1 + 1)
        = (8 * rest.length + (fuel + 7) + 1) from by omega]
    simp only []
    rw [hih]
    rw [show i + 2 + 2 * rest.length = i + 2 * ((op, q) :: rest).length from by
      simp [List.length_cons]; omega]
    simp [List.foldl_cons]


theorem equalityLoop_chain :
    ∀ (ops : List (TokenType × Rat)) (fuel : Nat) (toks : List Token)
      (i : Nat) (expr : Expr) (stop : Token),
    (∀ p ∈ ops, p.1 = TokenType.BangEqual ∨ p.1 = TokenType.EqualEqual) →
    ChainWindow toks i ops stop → stopsExpr stop →
    equalityLoop (8 * ops.length + fuel + 1) expr ⟨toks, i⟩
      = (.ok (ops.foldl
            (fun e p => .Binary e (opTok p.1) (.Literal (.Number p.2))) expr),
         ⟨toks, i + 2 * ops.length⟩) := by
  intro ops
  induction ops with
  | nil =>
    intro fuel toks i expr stop hops hw hstop
    obtain ⟨hLP, hSl, hSt, hMi, hPl, hGt, hGe, hLt, hLe, hBE, hEE, _⟩ := hstop
    simp only [List.length_nil, Nat.mul_zero, Nat.zero_add, Nat.add_zero,
      List.foldl_nil]
    exact equalityLoop_stop fuel toks i expr stop hw hBE hEE
  | cons p rest ih =>
    obtain ⟨op, q⟩ := p
    intro fuel toks i expr stop hops hw hstop
    obtain ⟨hw1, hw2, hw3⟩ := hw
    have hop : op = TokenType.BangEqual ∨ op = TokenType.EqualEqual := by
      simpa using hops (op, q) (by simp)
    obtain ⟨nt, hnt, hcase⟩ := chainWindow_first toks (i + 2) rest stop hw3
    have hntLP : (nt.token_type == TokenType.LeftParen) = false := by
      rcases hcase with ⟨_, rfl⟩ | ⟨p2, r2, hr, rfl⟩
      · exact hstop.1
      · have hp2 := hops p2 (by simp [hr])
        rcases hp2 with h | h <;> simp [h, opTok, Token.token_type]
    have hntSl : (nt.token_type == TokenType.Slash) = false := by
      rcases hcase with ⟨_, rfl⟩ | ⟨p2, r2, hr, rfl⟩
      · exact hstop.2.1
      · have hp2 := hops p2 (by simp [hr])
        rcases hp2 with h | h <;> simp [h, opTok, Token.token_type]
    have hntSt : (nt.token_type == TokenType.Star) = false := by
      rcases hcase with ⟨_, rfl⟩ | ⟨p2, r2, hr, rfl⟩
      · exact hstop.2.2.1
      · have hp2 := hops p2 (by simp [hr])
        rcases hp2 with h | h <;> simp [h, opTok, Token.token_type]
    have hntMi : (nt.token_type == TokenType.Minus) = false := by
      rcases hcase with ⟨_, rfl⟩ | ⟨p2, r2, hr, rfl⟩
      · exact hstop.2.2.2.1
      · have hp2 := hops p2 (by simp [hr])
        rcases hp2 with h | h <;> simp [h, opTok, Token.token_type]
    have hntPl : (nt.token_type == TokenType.Plus) = false := by
      rcases hcase with ⟨_, rfl⟩ | ⟨p2, r2, hr, rfl⟩
      · exact hstop.2.2.2.2.1
      · have hp2 := hops p2 (by simp [hr])
        rcases hp2 with h | h <;> simp [h, opTok, Token.token_type]
    have hntGt : (nt.token_type == TokenType.Greater) = false := by
      rcases hcase with ⟨_, rfl⟩ | ⟨p2, r2, hr, rfl⟩
      · exact hstop.2.2.2.2.2.1
      · have hp2 := hops p2 (by simp [hr])
        rcases hp2 with h | h <;> simp [h, opTok, Token.token_type]
    have hntGe : (nt.token_type == TokenType.GreaterEqual) = false := by
      rcases hcase with ⟨_, rfl⟩ | ⟨p2, r2, hr, rfl⟩
      · exact hstop.2.2.2.2.2.2.1
      · have hp2 := hops p2 (by simp [hr])
        rcases hp2 with h | h <;> simp [h, opTok, Token.token_type]
    have hntLt : (nt.token_type == TokenType.Less) = false := by
      rcases hcase with ⟨_, rfl⟩ | ⟨p2, r2, hr, rfl⟩
      · exact hstop.2.2.2.2.2.2.2.1
      · have hp2 := hops p2 (by simp [hr])
        rcases hp2 with h | h <;> simp [h, opTok, Token.token_type]
    have hntLe : (nt.token_type == TokenType.LessEqual) = false := by
      rcases hcase with ⟨_, rfl⟩ | ⟨p2, r2, hr, rfl⟩
      · exact hstop.2.2.2.2.2.2.2.2.1
      · have hp2 := hops p2 (by simp [hr])
        rcases hp2 with h | h <;> simp [h, opTok, Token.token_type]
    have hfuel : 8 * ((op, q) :: rest).length + fuel + 1
        = (8 * rest.length + fuel + 8) + 1 := by
      simp [List.length_cons]; omega
    rw [hfuel, equalityLoop_succ,
      matchTypes_of_get toks i (opTok op) hw1
        (by rcases hop with rfl | rfl <;> rfl)]
    have hopAny : ([TokenType.BangEqual, TokenType.EqualEqual].any
        (fun t => (opTok op).token_type == t)) = true := by
      rcases hop with rfl | rfl <;> rfl
    rw [hopAny]
    simp only [if_true]
    rw [previous_of_get toks i (opTok op) hw1]
    have hun : comparison (8 * rest.length + fuel + 2 + 1 + 1 + 1 + 1 + 1 + 1) ⟨toks, i + 1⟩
        = (.ok (.Literal (.Number q)), ⟨toks, i + 1 + 1⟩) :=
      comparison_number (8 * rest.length + fuel + 2) toks (i + 1) q nt
        (by simpa using hw2) (by simpa using hnt) hntLP hntSl hntSt hntMi hntPl hntGt hntGe hntLt hntLe
    rw [show (8 * rest.length + fuel + 8)
        = (8 * rest.length + fuel + 2 + 1 + 1 + 1 + 1 + 1 + 1) from by omega] at *
    rw [hun]
    have hih := ih (fuel + 7) toks (i + 2)
      (.Binary expr (opTok op) (.Literal (.Number q))) stop
      (fun p hp => hops p (by simp [hp])) hw3 hstop
    rw [show i + 1 + 1 = i + 2 from rfl]
    rw [show (8 * rest.length + fuel + 2 + 1 + 1 + 1 + 1 + 1 + 1)
        = (8 * rest.length + (fuel + 7) + 1) from by omega]
    simp only []
    rw [hih]
    rw [show i + 2 + 2 * rest.length = i + 2 * ((op, q) :: rest).length from by
      simp [List.length_cons]; omega]
    simp [List.foldl_cons]


theorem chainWindow_stop :
    ∀ (ops : List (TokenType × Rat)) (toks : List Token) (k : Nat)
      (stop : Token), ChainWindow toks k ops stop →
      toks.get? (k + 2 * ops.length) = some stop := by
  intro ops
  induction ops with
  | nil => intro toks k stop hw; simpa [ChainWindow] using hw
  | cons p rest ih =>
    obtain ⟨op, q⟩ := p
    intro toks k stop hw
    obtain ⟨_, _, hw3⟩ := hw
    have := ih toks (k + 2) stop hw3
    rw [show k + 2 * ((op, q) :: rest).length = k + 2 + 2 * rest.length from by
      simp [List.length_cons]; omega]
    exact this

theorem factor_chain (ops : List (TokenType × Rat)) (a : Rat) (fuel : Nat)
    (toks : List Token) (i : Nat) (stop : Token)
    (ha : toks.get? i = some (numTok a))
    (hw : ChainWindow toks (i + 1) ops stop) (hstop : stopsExpr stop)
    (hops : ∀ p ∈ ops, p.1 = TokenType.Slash ∨ p.1 = TokenType.Star) :
    factor (8 * ops.length + fuel + 5) ⟨toks, i⟩
      = (.ok (leftNested a ops), ⟨toks, i + 1 + 2 * ops.length⟩) := by
  obtain ⟨nt, hnt, hcase⟩ := chainWindow_first toks (i + 1) ops stop hw
  have hntLP : (nt.token_type == TokenType.LeftParen) = false := by
    rcases hcase with ⟨_, rfl⟩ | ⟨p2, r2, hr, rfl⟩
    · exact hstop.1
    · have hp2 := hops p2 (by simp [hr])
      rcases hp2 with h | h <;> simp [h, opTok, Token.token_type]
  rw [show 8 * ops.length + fuel + 5
      = (8 * ops.length + fuel + 4) + 1 from by omega, factor_succ]
  have hatom : unary ((8 * ops.length + fuel + 1) + 1 + 1 + 1) ⟨toks, i⟩
      = (.ok (.Literal (.Number a)), ⟨toks, i + 1⟩) :=
    unary_number (8 * ops.length + fuel + 1) toks i a nt ha hnt hntLP
  rw [show (8 * ops.length + fuel + 4)
      = ((8 * ops.length + fuel + 1) + 1 + 1 + 1) from by omega]
  rw [hatom]
  simp only []
  rw [show ((8 * ops.length + fuel + 1) + 1 + 1 + 1)
      = 8 * ops.length + (fuel + 3) + 1 from by omega]
  rw [factorLoop_chain ops (fuel + 3) toks (i + 1) (.Literal (.Number a))
      stop hops hw hstop]
  rw [show i + 1 + 2 * ops.length = i + 1 + 2 * ops.length from rfl]
  rfl


theorem term_chain (ops : List (TokenType × Rat)) (a : Rat) (fuel : Nat)
    (toks : List Token) (i : Nat) (stop : Token)
    (ha : toks.get? i = some (numTok a))
    (hw : ChainWindow toks (i + 1) ops stop) (hstop : stopsExpr stop)
    (hops : ∀ p ∈ ops, p.1 = TokenType.Minus ∨ p.1 = TokenType.Plus) :
    term (8 * ops.length + fuel + 6) ⟨toks, i⟩
      = (.ok (leftNested a ops), ⟨toks, i + 1 + 2 * ops.length⟩) := by
  obtain ⟨nt, hnt, hcase⟩ := chainWindow_first toks (i + 1) ops stop hw
  have hntLP : (nt.token_type == TokenType.LeftParen) = false := by
    rcases hcase with ⟨_, rfl⟩ | ⟨p2, r2, hr, rfl⟩
    · exact hstop.1
    · have hp2 := hops p2 (by simp [hr])
      rcases hp2 with h | h <;> simp [h, opTok, Token.token_type]
  have hntSl : (nt.token_type == TokenType.Slash) = false := by
    rcases hcase with ⟨_, rfl⟩ | ⟨p2, r2, hr, rfl⟩
    · exact hstop.2.1
    · have hp2 := hops p2 (by simp [hr])
      rcases hp2 with h | h <;> simp [h, opTok, Token.token_type]
  have hntSt : (nt.token_type == TokenType.Star) = false := by
    rcases hcase with ⟨_, rfl⟩ | ⟨p2, r2, hr, rfl⟩
    · exact hstop.2.2.1
    · have hp2 := hops p2 (by simp [hr])
      rcases hp2 with h | h <;> simp [h, opTok, Token.token_type]
  rw [show 8 * ops.length + fuel + 6
      = (8 * ops.length + fuel + 5) + 1 from by omega, term_succ]
  have hatom : factor ((8 * ops.length + fuel + 1) + 1 + 1 + 1 + 1) ⟨toks, i⟩
      = (.ok (.Literal (.Number a)), ⟨toks, i + 1⟩) :=
    factor_number (8 * ops.length + fuel + 1) toks i a nt ha hnt hntLP hntSl hntSt
  rw [show (8 * ops.length + fuel + 5)
      = ((8 * ops.length + fuel + 1) + 1 + 1 + 1 + 1) from by omega]
  rw [hatom]
  simp only []
  rw [show ((8 * ops.length + fuel + 1) + 1 + 1 + 1 + 1)
      = 8 * ops.length + (fuel + 4) + 1 from by omega]
  rw [termLoop_chain ops (fuel + 4) toks (i + 1) (.Literal (.Number a))
      stop hops hw hstop]
  rw [show i + 1 + 2 * ops.length = i + 1 + 2 * ops.length from rfl]
  rfl


theorem comparison_chain (ops : List (TokenType × Rat)) (a : Rat) (fuel : Nat)
    (toks : List Token) (i : Nat) (stop : Token)
    (ha : toks.get? i = some (numTok a))
    (hw : ChainWindow toks (i + 1) ops stop) (hstop : stopsExpr stop)
    (hops : ∀ p ∈ ops, p.1 = TokenType.Greater ∨ p.1 = TokenType.GreaterEqual ∨ p.1 = TokenType.Less ∨ p.1 = TokenType.LessEqual) :
    comparison (8 * ops.length + fuel + 7) ⟨toks, i⟩
      = (.ok (leftNested a ops), ⟨toks, i + 1 + 2 * ops.length⟩) := by
  obtain ⟨nt, hnt, hcase⟩ := chainWindow_first toks (i + 1) ops stop hw
  have hntLP : (nt.token_type == TokenType.LeftParen) = false := by
    rcases hcase with ⟨_, rfl⟩ | ⟨p2, r2, hr, rfl⟩
    · exact hstop.1
    · have hp2 := hops p2 (by simp [hr])
      rcases hp2 with h | h | h | h <;> simp [h, opTok, Token.token_type]
  have hntSl : (nt.token_type == TokenType.Slash) = false := by
    rcases hcase with ⟨_, rfl⟩ | ⟨p2, r2, hr, rfl⟩
    · exact hstop.2.1
    · have hp2 := hops p2 (by simp [hr])
      rcases hp2 with h | h | h | h <;> simp [h, opTok, Token.token_type]
  have hntSt : (nt.token_type == TokenType.Star) = false := by
    rcases hcase with ⟨_, rfl⟩ | ⟨p2, r2, hr, rfl⟩
    · exact hstop.2.2.1
    · have hp2 := hops p2 (by simp [hr])
      rcases hp2 with h | h | h | h <;> simp [h, opTok, Token.token_type]
  have hntMi : (nt.token_type == TokenType.Minus) = false := by
    rcases hcase with ⟨_, rfl⟩ | ⟨p2, r2, hr, rfl⟩
    · exact hstop.2.2.2.1
    · have hp2 := hops p2 (by simp [hr])
      rcases hp2 with h | h | h | h <;> simp [h, opTok, Token.token_type]
  have hntPl : (nt.token_type == TokenType.Plus) = false := by
    rcases hcase with ⟨_, rfl⟩ | ⟨p2, r2, hr, rfl⟩
    · exact hstop.2.2.2.2.1
    · have hp2 := hops p2 (by simp [hr])
      rcases hp2 with h | h | h | h <;> simp [h, opTok, Token.token_type]
  rw [show 8 * ops.length + fuel + 7
      = (8 * ops.length + fuel + 6) + 1 from by omega, comparison_succ]
  have hatom : term ((8 * ops.length + fuel + 1) + 1 + 1 + 1 + 1 + 1) ⟨toks, i⟩
      = (.ok (.Literal (.Number a)), ⟨toks, i + 1⟩) :=
    term_number (8 * ops.length + fuel + 1) toks i a nt ha hnt hntLP hntSl hntSt hntMi hntPl
  rw [show (8 * ops.length + fuel + 6)
      = ((8 * ops.length + fuel + 1) + 1 + 1 + 1 + 1 + 1) from by omega]
  rw [hatom]
  simp only []
  rw [show ((8 * ops.length + fuel + 1) + 1 + 1 + 1 + 1 + 1)
      = 8 * ops.length + (fuel + 5) + 1 from by omega]
  rw [comparisonLoop_chain ops (fuel + 5) toks (i + 1) (.Literal (.Number a))
      stop hops hw hstop]
  rw [show i + 1 + 2 * ops.length = i + 1 + 2 * ops.length from rfl]
  rfl


theorem equality_chain (ops : List (TokenType × Rat)) (a : Rat) (fuel : Nat)
    (toks : List Token) (i : Nat) (stop : Token)
    (ha : toks.get? i = some (numTok a))
    (hw : ChainWindow toks (i + 1) ops stop) (hstop : stopsExpr stop)
    (hops : ∀ p ∈ ops, p.1 = TokenType.BangEqual ∨ p.1 = TokenType.EqualEqual) :
    equality (8 * ops.length + fuel + 8) ⟨toks, i⟩
      = (.ok (leftNested a ops), ⟨toks, i + 1 + 2 * ops.length⟩) := by
  obtain ⟨nt, hnt, hcase⟩ := chainWindow_first toks (i + 1) ops stop hw
  have hntLP : (nt.token_type == TokenType.LeftParen) = false := by
    rcases hcase with ⟨_, rfl⟩ | ⟨p2, r2, hr, rfl⟩
    · exact hstop.1
    · have hp2 := hops p2 (by simp [hr])
      rcases hp2 with h | h <;> simp [h, opTok, Token.token_type]
  have hntSl : (nt.token_type == TokenType.Slash) = false := by
    rcases hcase with ⟨_, rfl⟩ | ⟨p2, r2, hr, rfl⟩
    · exact hstop.2.1
    · have hp2 := hops p2 (by simp [hr])
      rcases hp2 with h | h <;> simp [h, opTok, Token.token_type]
  have hntSt : (nt.token_type == TokenType.Star) = false := by
    rcases hcase with ⟨_, rfl⟩ | ⟨p2, r2, hr, rfl⟩
    · exact hstop.2.2.1
    · have hp2 := hops p2 (by simp [hr])
      rcases hp2 with h | h <;> simp [h, opTok, Token.token_type]
  have hntMi : (nt.token_type == TokenType.Minus) = false := by
    rcases hcase with ⟨_, rfl⟩ | ⟨p2, r2, hr, rfl⟩
    · exact hstop.2.2.2.1
    · have hp2 := hops p2 (by simp [hr])
      rcases hp2 with h | h <;> simp [h, opTok, Token.token_type]
  have hntPl : (nt.token_type == TokenType.Plus) = false := by
    rcases hcase with ⟨_, rfl⟩ | ⟨p2, r2, hr, rfl⟩
    · exact hstop.2.2.2.2.1
    · have hp2 := hops p2 (by simp [hr])
      rcases hp2 with h | h <;> simp [h, opTok, Token.token_type]
  have hntGt : (nt.token_type == TokenType.Greater) = false := by
    rcases hcase with ⟨_, rfl⟩ | ⟨p2, r2, hr, rfl⟩
    · exact hstop.2.2.2.2.2.1
    · have hp2 := hops p2 (by simp [hr])
      rcases hp2 with h | h <;> simp [h, opTok, Token.token_type]
  have hntGe : (nt.token_type == TokenType.GreaterEqual) = false := by
    rcases hcase with ⟨_, rfl⟩ | ⟨p2, r2, hr, rfl⟩
    · exact hstop.2.2.2.2.2.2.1
    · have hp2 := hops p2 (by simp [hr])
      rcases hp2 with h | h <;> simp [h, opTok, Token.token_type]
  have hntLt : (nt.token_type == TokenType.Less) = false := by
    rcases hcase with ⟨_, rfl⟩ | ⟨p2, r2, hr, rfl⟩
    · exact hstop.2.2.2.2.2.2.2.1
    · have hp2 := hops p2 (by simp [hr])
      rcases hp2 with h | h <;> simp [h, opTok, Token.token_type]
  have hntLe : (nt.token_type == TokenType.LessEqual) = false := by
    rcases hcase with ⟨_, rfl⟩ | ⟨p2, r2, hr, rfl⟩
    · exact hstop.2.2.2.2.2.2.2.2.1
    · have hp2 := hops p2 (by simp [hr])
      rcases hp2 with h | h <;> simp [h, opTok, Token.token_type]
  rw [show 8 * ops.length + fuel + 8
      = (8 * ops.length + fuel + 7) + 1 from by omega, equality_succ]
  have hatom : comparison ((8 * ops.length + fuel + 1) + 1 + 1 + 1 + 1 + 1 + 1) ⟨toks, i⟩
      = (.ok (.Literal (.Number a)), ⟨toks, i + 1⟩) :=
    comparison_number (8 * ops.length + fuel + 1) toks i a nt ha hnt hntLP hntSl hntSt hntMi hntPl hntGt hntGe hntLt hntLe
  rw [show (8 * ops.length + fuel + 7)
      = ((8 * ops.length + fuel + 1) + 1 + 1 + 1 + 1 + 1 + 1) from by omega]
  rw [hatom]
  simp only []
  rw [show ((8 * ops.length + fuel + 1) + 1 + 1 + 1 + 1 + 1 + 1)
      = 8 * ops.length + (fuel + 6) + 1 from by omega]
  rw [equalityLoop_chain ops (fuel + 6) toks (i + 1) (.Literal (.Number a))
      stop hops hw hstop]
  rw [show i + 1 + 2 * ops.length = i + 1 + 2 * ops.length from rfl]
  rfl


theorem term_of_factor (fuel : Nat) (toks : List Token) (i j : Nat) (e : Expr)
    (stop : Token) (h : factor (fuel + 1) ⟨toks, i⟩ = (.ok e, ⟨toks, j⟩))
    (hj : toks.get? j = some stop)
    (h4 : (stop.token_type == TokenType.Minus) = false)
    (h5 : (stop.token_type == TokenType.Plus) = false) :
    term (fuel + 1 + 1) ⟨toks, i⟩ = (.ok e, ⟨toks, j⟩) := by
  rw [term_succ, h]
  simp only []
  exact termLoop_stop fuel toks j e stop hj h4 h5

theorem comparison_of_term (fuel : Nat) (toks : List Token) (i j : Nat)
    (e : Expr) (stop : Token)
    (h : term (fuel + 1) ⟨toks, i⟩ = (.ok e, ⟨toks, j⟩))
    (hj : toks.get? j = some stop)
    (h6 : (stop.token_type == TokenType.Greater) = false)
    (h7 : (stop.token_type == TokenType.GreaterEqual) = false)
    (h8 : (stop.token_type == TokenType.Less) = false)
    (h9 : (stop.token_type == TokenType.LessEqual) = false) :
    comparison (fuel + 1 + 1) ⟨toks, i⟩ = (.ok e, ⟨toks, j⟩) := by
  rw [comparison_succ, h]
  simp only []
  exact comparisonLoop_stop fuel toks j e stop hj h6 h7 h8 h9

theorem equality_of_comparison (fuel : Nat) (toks : List Token) (i j : Nat)
    (e : Expr) (stop : Token)
    (h : comparison (fuel + 1) ⟨toks, i⟩ = (.ok e, ⟨toks, j⟩))
    (hj : toks.get? j = some stop)
    (ha : (stop.token_type == TokenType.BangEqual) = false)
    (hb : (stop.token_type == TokenType.EqualEqual) = false) :
    equality (fuel + 1 + 1) ⟨toks, i⟩ = (.ok e, ⟨toks, j⟩) := by
  rw [equality_succ, h]
  simp only []
  exact equalityLoop_stop fuel toks j e stop hj ha hb

theorem logic_and_of_equality (fuel : Nat) (toks : List Token) (i j : Nat)
    (e : Expr) (stop : Token)
    (h : equality (fuel + 1) ⟨toks, i⟩ = (.ok e, ⟨toks, j⟩))
    (hj : toks.get? j = some stop)
    (hAnd : (stop.token_type == TokenType.And) = false) :
    logic_and (fuel + 1 + 1) ⟨toks, i⟩ = (.ok e, ⟨toks, j⟩) := by
  rw [logic_and_succ, h]
  simp only []
  simp [PState.match_token_type, check_of_get toks j stop hj, hAnd]

theorem logic_or_of_logic_and (fuel : Nat) (toks : List Token) (i j : Nat)
    (e : Expr) (stop : Token)
    (h : logic_and (fuel + 1) ⟨toks, i⟩ = (.ok e, ⟨toks, j⟩))
    (hj : toks.get? j = some stop)
    (hOr : (stop.token_type == TokenType.Or) = false) :
    logic_or (fuel + 1 + 1) ⟨toks, i⟩ = (.ok e, ⟨toks, j⟩) := by
  rw [logic_or_succ, h]
  simp only []
  simp [PState.match_token_type, check_of_get toks j stop hj, hOr]

theorem assignment_of_logic_or (fuel : Nat) (toks : List Token) (i j : Nat)
    (e : Expr) (stop : Token)
    (h : logic_or (fuel + 1) ⟨toks, i⟩ = (.ok e, ⟨toks, j⟩))
    (hj : toks.get? j = some stop)
    (hEq : (stop.token_type == TokenType.Equal) = false) :
    assignment (fuel + 1 + 1) ⟨toks, i⟩ = (.ok e, ⟨toks, j⟩) := by
  rw [assignment_succ, h]
  simp only []
  simp [PState.match_token_type, check_of_get toks j stop hj, hEq]

theorem expression_of_assignment (fuel : Nat) (st st2 : PState)
    (r : Except LoxError Expr) (h : assignment (fuel + 1) st = (r, st2)) :
    expression (fuel + 1 + 1) st = (r, st2) := by
  rw [expression_succ, h]

theorem expression_chain (ops : List (TokenType × Rat)) (a : Rat) (fuel : Nat)
    (toks : List Token) (i : Nat) (stop : Token)
    (ha : toks.get? i = some (numTok a))
    (hw : ChainWindow toks (i + 1) ops stop) (hstop : stopsExpr stop)
    (htier :
      (∀ p ∈ ops, p.1 = TokenType.Slash ∨ p.1 = TokenType.Star) ∨
      (∀ p ∈ ops, p.1 = TokenType.Minus ∨ p.1 = TokenType.Plus) ∨
      (∀ p ∈ ops, p.1 = TokenType.Greater ∨ p.1 = TokenType.GreaterEqual ∨
        p.1 = TokenType.Less ∨ p.1 = TokenType.LessEqual) ∨
      (∀ p ∈ ops, p.1 = TokenType.BangEqual ∨ p.1 = TokenType.EqualEqual)) :
    expression (8 * ops.length + fuel + 12) ⟨toks, i⟩
      = (.ok (leftNested a ops), ⟨toks, i + 1 + 2 * ops.length⟩) := by
  have hstopPos : toks.get? (i + 1 + 2 * ops.length) = some stop :=
    chainWindow_stop ops toks (i + 1) stop hw
  obtain ⟨hLP, hSl, hSt, hMi, hPl, hGt, hGe, hLt, hLe, hBE, hEE, hAn, hOr, hEq⟩ :=
    hstop
  rcases htier with hops | hops | hops | hops
  · have h1 : factor ((8 * ops.length + fuel + 4) + 1) ⟨toks, i⟩
        = (.ok (leftNested a ops), ⟨toks, i + 1 + 2 * ops.length⟩) := by
      rw [show (8 * ops.length + fuel + 4) + 1 = 8 * ops.length + fuel + 5
        from by omega]
      exact factor_chain ops a fuel toks i stop ha hw
        ⟨hLP, hSl, hSt, hMi, hPl, hGt, hGe, hLt, hLe, hBE, hEE, hAn, hOr, hEq⟩
        hops
    have h2 := term_of_factor _ toks i _ _ stop h1 hstopPos hMi hPl
    have h3 := comparison_of_term _ toks i _ _ stop h2 hstopPos hGt hGe hLt hLe
    have h4 := equality_of_comparison _ toks i _ _ stop h3 hstopPos hBE hEE
    have h5 := logic_and_of_equality _ toks i _ _ stop h4 hstopPos hAn
    have h6 := logic_or_of_logic_and _ toks i _ _ stop h5 hstopPos hOr
    have h7 := assignment_of_logic_or _ toks i _ _ stop h6 hstopPos hEq
    have h8 := expression_of_assignment _ _ _ _ h7
    rw [show 8 * ops.length + fuel + 12
      = (8 * ops.length + fuel + 4) + 1 + 1 + 1 + 1 + 1 + 1 + 1 + 1
      from by omega]
    exact h8
  · have h1 : term ((8 * ops.length + fuel + 5) + 1) ⟨toks, i⟩
        = (.ok (leftNested a ops), ⟨toks, i + 1 + 2 * ops.length⟩) := by
      rw [show (8 * ops.length + fuel + 5) + 1 = 8 * ops.length + fuel + 6
        from by omega]
      exact term_chain ops a fuel toks i stop ha hw
        ⟨hLP, hSl, hSt, hMi, hPl, hGt, hGe, hLt, hLe, hBE, hEE, hAn, hOr, hEq⟩
        hops
    have h3 := comparison_of_term _ toks i _ _ stop h1 hstopPos hGt hGe hLt hLe
    have h4 := equality_of_comparison _ toks i _ _ stop h3 hstopPos hBE hEE
    have h5 := logic_and_of_equality _ toks i _ _ stop h4 hstopPos hAn
    have h6 := logic_or_of_logic_and _ toks i _ _ stop h5 hstopPos hOr
    have h7 := assignment_of_logic_or _ toks i _ _ stop h6 hstopPos hEq
    have h8 := expression_of_assignment _ _ _ _ h7
    rw [show 8 * ops.length + fuel + 12
      = (8 * ops.length + fuel + 5) + 1 + 1 + 1 + 1 + 1 + 1 + 1
      from by omega]
    exact h8
  · have h1 : comparison ((8 * ops.length + fuel + 6) + 1) ⟨toks, i⟩
        = (.ok (leftNested a ops), ⟨toks, i + 1 + 2 * ops.length⟩) := by
      rw [show (8 * ops.length + fuel + 6) + 1 = 8 * ops.length + fuel + 7
        from by omega]
      exact comparison_chain ops a fuel toks i stop ha hw
        ⟨hLP, hSl, hSt, hMi, hPl, hGt, hGe, hLt, hLe, hBE, hEE, hAn, hOr, hEq⟩
        hops
    have h4 := equality_of_comparison _ toks i _ _ stop h1 hstopPos hBE hEE
    have h5 := logic_and_of_equality _ toks i _ _ stop h4 hstopPos hAn
    have h6 := logic_or_of_logic_and _ toks i _ _ stop h5 hstopPos hOr
    have h7 := assignment_of_logic_or _ toks i _ _ stop h6 hstopPos hEq
    have h8 := expression_of_assignment _ _ _ _ h7
    rw [show 8 * ops.length + fuel + 12
      = (8 * ops.length + fuel + 6) + 1 + 1 + 1 + 1 + 1 + 1
      from by omega]
    exact h8
  · have h1 : equality ((8 * ops.length + fuel + 7) + 1) ⟨toks, i⟩
        = (.ok (leftNested a ops), ⟨toks, i + 1 + 2 * ops.length⟩) := by
      rw [show (8 * ops.length + fuel + 7) + 1 = 8 * ops.length + fuel + 8
        from by omega]
      exact equality_chain ops a fuel toks i stop ha hw
        ⟨hLP, hSl, hSt, hMi, hPl, hGt, hGe, hLt, hLe, hBE, hEE, hAn, hOr, hEq⟩
        hops
    have h5 := logic_and_of_equality _ toks i _ _ stop h1 hstopPos hAn
    have h6 := logic_or_of_logic_and _ toks i _ _ stop h5 hstopPos hOr
    have h7 := assignment_of_logic_or _ toks i _ _ stop h6 hstopPos hEq
    have h8 := expression_of_assignment _ _ _ _ h7
    rw [show 8 * ops.length + fuel + 12
      = (8 * ops.length + fuel + 7) + 1 + 1 + 1 + 1 + 1
      from by omega]
    exact h8

end

theorem expression_statement_succ (fuel : Nat) (st : PState) :
    expression_statement (fuel + 1) st =
      (match expression fuel st with
      | (.error e, st) => (.error e, st)
      | (.ok value, st) =>
        match st.consume .Semicolon "Expect ';' after expression." with
        | (.error e, st) => (.error e, st)
        | (.ok _, st) => (.ok (.Expression value), st)) := rfl

theorem statement_succ (fuel : Nat) (st : PState) :
    statement (fuel + 1) st =
      (let (m, st) := st.match_token_type .For
      if m then for_statement fuel st else
      let (m, st) := st.match_token_type .If
      if m then if_statement fuel st else
      let (m, st) := st.match_token_type .Print
      if m then print_statement fuel st else
      let (m, st) := st.match_token_type .Return
      if m then return_statement fuel st else
      let (m, st) := st.match_token_type .While
      if m then while_statement fuel st else
      let (m, st) := st.match_token_type .LeftBrace
      if m then
        match block fuel st with
        | (.error e, st) => (.error e, st)
        | (.ok stmts, st) => (.ok (.Block stmts), st)
      else expression_statement fuel st) := rfl

theorem declaration_succ (fuel : Nat) (st : PState) :
    declaration (fuel + 1) st =
      (let (m, st) := st.match_token_type .Fun
      if m then function fuel "function" st
      else
        let (mv, st) := st.match_token_type .Var
        match if mv then var_declaration fuel st else statement fuel st with
        | (.error e, st) => (.error e, synchronize st)
        | (.ok s, st) => (.ok s, st)) := rfl

theorem parseLoop_succ (fuel : Nat) (statements : List Stmt) (st : PState) :
    parseLoop (fuel + 1) statements st =
      (if !st.is_at_end then
        match declaration fuel st with
        | (.error e, st) => (.error e, st)
        | (.ok d, st) => parseLoop fuel (statements ++ [d]) st
      else (.ok statements, st)) := rfl

theorem is_at_end_of_get (toks : List Token) (i : Nat) (tok : Token)
    (hi : toks.get? i = some tok) :
    PState.is_at_end ⟨toks, i⟩ = (tok.token_type == .Eof) := by
  rw [List.get?_eq_getElem?] at hi
  simp [PState.is_at_end, PState.peek, hi]

theorem consume_of_get (toks : List Token) (i : Nat) (tok : Token)
    (hi : toks.get? i = some tok) (tt : TokenType) (msg : String)
    (htt : (tok.token_type == tt) = true)
    (hne : (tok.token_type == .Eof) = false) :
    PState.consume ⟨toks, i⟩ tt msg = (.ok tok, ⟨toks, i + 1⟩) := by
  simp only [PState.consume, check_of_get toks i tok hi tt, htt, if_true]
  simp only [PState.advance, is_at_end_of_get toks i tok hi, hne]
  simp [previous_of_get toks i tok hi]

/-- The token run of a chain tail: `op₁ num₁ op₂ num₂ …`. -/
def chainChunk (ops : List (TokenType × Rat)) : List Token :=
  ops.flatMap fun p => [opTok p.1, numTok p.2]

/-- The `;` token closing each chain program. -/
def semiTok : Token := .mk .Semicolon ";" none 1 0

/-- The full token sequence of the chain source
`a op₁ b₁ op₂ b₂ … ;` (with a terminating `Eof`). -/
def chainToks (a : Rat) (ops : List (TokenType × Rat)) : List Token :=
  numTok a :: (chainChunk ops ++ [semiTok, eofDefault])

theorem chainChunk_length (ops : List (TokenType × Rat)) :
    (chainChunk ops).length = 2 * ops.length := by
  induction ops with
  | nil => rfl
  | cons p rest ih => simp [chainChunk, List.length_cons] at ih ⊢; omega

theorem chainWindow_build :
    ∀ (ops : List (TokenType × Rat)) (pre post : List Token) (stop : Token),
    ChainWindow (pre ++ (chainChunk ops ++ stop :: post)) pre.length ops stop := by
  intro ops
  induction ops with
  | nil =>
    intro pre post stop
    show (pre ++ (chainChunk [] ++ stop :: post)).get? pre.length = some stop
    rw [List.get?_eq_getElem?,
      show chainChunk [] ++ stop :: post = stop :: post from rfl,
      List.getElem?_append_right (Nat.le_refl _)]
    simp
  | cons p rest ih =>
    obtain ⟨op, q⟩ := p
    intro pre post stop
    refine ⟨?_, ?_, ?_⟩
    · show (pre ++ (chainChunk ((op, q) :: rest) ++ stop :: post)).get? pre.length
        = some (opTok op)
      rw [List.get?_eq_getElem?,
        show chainChunk ((op, q) :: rest) ++ stop :: post
          = opTok op :: (numTok q :: (chainChunk rest ++ stop :: post))
          from by simp [chainChunk],
        List.getElem?_append_right (Nat.le_refl _)]
      simp
    · show (pre ++ (chainChunk ((op, q) :: rest) ++ stop :: post)).get? (pre.length + 1)
        = some (numTok q)
      rw [List.get?_eq_getElem?,
        show chainChunk ((op, q) :: rest) ++ stop :: post
          = opTok op :: (numTok q :: (chainChunk rest ++ stop :: post))
          from by simp [chainChunk],
        List.getElem?_append_right (Nat.le_succ_of_le (Nat.le_refl _))]
      simp
    · have h2 := ih (pre ++ [opTok op, numTok q]) post stop
      rw [show (pre ++ [opTok op, numTok q]).length = pre.length + 2 from by simp]
        at h2
      rw [show pre ++ (chainChunk ((op, q) :: rest) ++ stop :: post)
          = (pre ++ [opTok op, numTok q]) ++ (chainChunk rest ++ stop :: post)
        from by simp [chainChunk]]
      exact h2

theorem chainToks_get_zero (a : Rat) (ops : List (TokenType × Rat)) :
    (chainToks a ops).get? 0 = some (numTok a) := rfl

theorem chainToks_window (a : Rat) (ops : List (TokenType × Rat)) :
    ChainWindow (chainToks a ops) 1 ops semiTok := by
  have := chainWindow_build ops [numTok a] [eofDefault] semiTok
  simpa [chainToks] using this

theorem chainToks_eof (a : Rat) (ops : List (TokenType × Rat)) :
    (chainToks a ops).get? (1 + 2 * ops.length + 1) = some eofDefault := by
  rw [show chainToks a ops
      = numTok a :: (chainChunk ops ++ [semiTok, eofDefault]) from rfl]
  rw [show (1 : Nat) + 2 * ops.length + 1 = (2 * ops.length + 1) + 1 from by omega]
  rw [List.get?_cons_succ, List.get?_eq_getElem?,
    List.getElem?_append_right (by simp [chainChunk_length])]
  simp [chainChunk_length]

theorem semiTok_stops : stopsExpr semiTok := by
  refine ⟨rfl, rfl, rfl, rfl, rfl, rfl, rfl, rfl, rfl, rfl, rfl, rfl, rfl, rfl⟩

section

attribute [local irreducible] expression assignment logic_or logic_and
  equality equalityLoop comparison comparisonLoop term termLoop factor
  factorLoop unary callRule callLoop primary finish_call argumentsRule
  argsLoop declaration statement for_statement while_statement if_statement
  expression_statement function paramsLoop blockLoop block print_statement
  return_statement var_declaration parseLoop

theorem parse_chain (a : Rat) (ops : List (TokenType × Rat)) (fuel : Nat)
    (htier :
      (∀ p ∈ ops, p.1 = TokenType.Slash ∨ p.1 = TokenType.Star) ∨
      (∀ p ∈ ops, p.1 = TokenType.Minus ∨ p.1 = TokenType.Plus) ∨
      (∀ p ∈ ops, p.1 = TokenType.Greater ∨ p.1 = TokenType.GreaterEqual ∨
        p.1 = TokenType.Less ∨ p.1 = TokenType.LessEqual) ∨
      (∀ p ∈ ops, p.1 = TokenType.BangEqual ∨ p.1 = TokenType.EqualEqual)) :
    parse (8 * ops.length + fuel + 16) (chainToks a ops)
      = .ok [.Expression (leftNested a ops)] := by
  have ha := chainToks_get_zero a ops
  have hw := chainToks_window a ops
  have hsemi : (chainToks a ops).get? (1 + 2 * ops.length) = some semiTok :=
    chainWindow_stop ops (chainToks a ops) 1 semiTok hw
  have hexp := expression_chain ops a fuel (chainToks a ops) 0 semiTok
    (by simpa using ha) (by simpa using hw) semiTok_stops htier
  have hes : expression_statement (8 * ops.length + fuel + 13) ⟨chainToks a ops, 0⟩
      = (.ok (.Expression (leftNested a ops)), ⟨chainToks a ops, 1 + 2 * ops.length + 1⟩) := by
    rw [show 8 * ops.length + fuel + 13 = (8 * ops.length + fuel + 12) + 1
      from by omega, expression_statement_succ]
    rw [show (0 : Nat) + 1 + 2 * ops.length = 1 + 2 * ops.length from by omega] at hexp
    rw [hexp]
    simp only []
    rw [consume_of_get (chainToks a ops) (1 + 2 * ops.length) semiTok hsemi
      .Semicolon "Expect ';' after expression." rfl rfl]
  have hst : statement (8 * ops.length + fuel + 14) ⟨chainToks a ops, 0⟩
      = (.ok (.Expression (leftNested a ops)), ⟨chainToks a ops, 1 + 2 * ops.length + 1⟩) := by
    rw [show 8 * ops.length + fuel + 14 = (8 * ops.length + fuel + 13) + 1
      from by omega, statement_succ]
    simp [PState.match_token_type, check_of_get (chainToks a ops) 0 (numTok a) ha,
      numTok, Token.token_type, hes]
  have hdecl : declaration (8 * ops.length + fuel + 15) ⟨chainToks a ops, 0⟩
      = (.ok (.Expression (leftNested a ops)), ⟨chainToks a ops, 1 + 2 * ops.length + 1⟩) := by
    rw [show 8 * ops.length + fuel + 15 = (8 * ops.length + fuel + 14) + 1
      from by omega, declaration_succ]
    simp [PState.match_token_type, check_of_get (chainToks a ops) 0 (numTok a) ha,
      numTok, Token.token_type, hst]
  show (parseLoop (8 * ops.length + fuel + 16) [] ⟨chainToks a ops, 0⟩).1
      = .ok [.Expression (leftNested a ops)]
  rw [show 8 * ops.length + fuel + 16 = (8 * ops.length + fuel + 15) + 1
    from by omega, parseLoop_succ]
  rw [is_at_end_of_get (chainToks a ops) 0 (numTok a) ha]
  simp only [numTok, Token.token_type]
  rw [hdecl]
  simp only []
  rw [show 8 * ops.length + fuel + 15 = (8 * ops.length + fuel + 14) + 1
    from by omega, parseLoop_succ]
  rw [is_at_end_of_get (chainToks a ops) (1 + 2 * ops.length + 1) eofDefault
    (chainToks_eof a ops)]
  simp [eofDefault, Token.token_type]

end

/-! ## Concrete programs used by the claims

Each list is the scanner's token sequence for the source shown in its
doc comment (one token per lexeme, `Eof`-terminated, with line/column
positions as the scanner assigns them). -/

/-- Tokens of `1 +; 2 +; print 3;` — two independently invalid statements
separated by `;`, then a valid print statement. -/
def twoErrorsToks : List Token :=
  [ .mk .Number "1" (some (.Number 1)) 1 1
  , .mk .Plus "+" none 1 2
  , .mk .Semicolon ";" none 1 3
  , .mk .Number "2" (some (.Number 2)) 1 4
  , .mk .Plus "+" none 1 5
  , .mk .Semicolon ";" none 1 6
  , .mk .Print "print" none 1 7
  , .mk .Number "3" (some (.Number 3)) 1 8
  , .mk .Semicolon ";" none 1 9
  , .mk .Eof "" none 1 10 ]

/-- Tokens of `a or b or c;`. -/
def orChainToks : List Token :=
  [ .mk .Identifier "a" none 1 1
  , .mk .Or "or" none 1 2
  , .mk .Identifier "b" none 1 3
  , .mk .Or "or" none 1 4
  , .mk .Identifier "c" none 1 5
  , .mk .Semicolon ";" none 1 6
  , .mk .Eof "" none 1 7 ]

/-- Tokens of `a and b and c;`. -/
def andChainToks : List Token :=
  [ .mk .Identifier "a" none 1 1
  , .mk .And "and" none 1 2
  , .mk .Identifier "b" none 1 3
  , .mk .And "and" none 1 4
  , .mk .Identifier "c" none 1 5
  , .mk .Semicolon ";" none 1 6
  , .mk .Eof "" none 1 7 ]

/-- Tokens of `1 == 2 != 3;` (an equality-tier chain). -/
def eqChainToks : List Token :=
  [ .mk .Number "1" (some (.Number 1)) 1 1
  , .mk .EqualEqual "==" none 1 2
  , .mk .Number "2" (some (.Number 2)) 1 3
  , .mk .BangEqual "!=" none 1 4
  , .mk .Number "3" (some (.Number 3)) 1 5
  , .mk .Semicolon ";" none 1 6
  , .mk .Eof "" none 1 7 ]

/-- Tokens of `1 < 2 <= 3 > 0;` (a comparison-tier chain). -/
def cmpChainToks : List Token :=
  [ .mk .Number "1" (some (.Number 1)) 1 1
  , .mk .Less "<" none 1 2
  , .mk .Number "2" (some (.Number 2)) 1 3
  , .mk .LessEqual "<=" none 1 4
  , .mk .Number "3" (some (.Number 3)) 1 5
  , .mk .Greater ">" none 1 6
  , .mk .Number "0" (some (.Number 0)) 1 7
  , .mk .Semicolon ";" none 1 8
  , .mk .Eof "" none 1 9 ]

/-- Tokens of `1 - 2 + 3 - 4;` (a term-tier chain). -/
def termChainToks : List Token :=
  [ .mk .Number "1" (some (.Number 1)) 1 1
  , .mk .Minus "-" none 1 2
  , .mk .Number "2" (some (.Number 2)) 1 3
  , .mk .Plus "+" none 1 4
  , .mk .Number "3" (some (.Number 3)) 1 5
  , .mk .Minus "-" none 1 6
  , .mk .Number "4" (some (.Number 4)) 1 7
  , .mk .Semicolon ";" none 1 8
  , .mk .Eof "" none 1 9 ]

/-- Tokens of `8 / 2 * 2 / 4;` (a factor-tier chain). -/
def factorChainToks : List Token :=
  [ .mk .Number "8" (some (.Number 8)) 1 1
  , .mk .Slash "/" none 1 2
  , .mk .Number "2" (some (.Number 2)) 1 3
  , .mk .Star "*" none 1 4
  , .mk .Number "2" (some (.Number 2)) 1 5
  , .mk .Slash "/" none 1 6
  , .mk .Number "4" (some (.Number 4)) 1 7
  , .mk .Semicolon ";" none 1 8
  , .mk .Eof "" none 1 9 ]

/-- Tokens of `1();` — parses fine, fails at run time (calling a number). -/
def callNumberToks : List Token :=
  [ .mk .Number "1" (some (.Number 1)) 1 1
  , .mk .LeftParen "(" none 1 2
  , .mk .RightParen ")" none 1 3
  , .mk .Semicolon ";" none 1 4
  , .mk .Eof "" none 1 5 ]

/-- Tokens of `print "hi";`. -/
def printHiToks : List Token :=
  [ .mk .Print "print" none 1 1
  , .mk .String "\"hi\"" (some (.Str "hi")) 1 2
  , .mk .Semicolon ";" none 1 3
  , .mk .Eof "" none 1 4 ]

/-- Tokens of `var x = 1;`. -/
def varXToks : List Token :=
  [ .mk .Var "var" none 1 1
  , .mk .Identifier "x" none 1 2
  , .mk .Equal "=" none 1 3
  , .mk .Number "1" (some (.Number 1)) 1 4
  , .mk .Semicolon ";" none 1 5
  , .mk .Eof "" none 1 6 ]

/-- Tokens of `x = 2;` (on line 2). -/
def assignXToks : List Token :=
  [ .mk .Identifier "x" none 2 1
  , .mk .Equal "=" none 2 2
  , .mk .Number "2" (some (.Number 2)) 2 3
  , .mk .Semicolon ";" none 2 4
  , .mk .Eof "" none 2 5 ]

/-! ## Claims -/

/-- C1 — counterexample: `Environment::get` does not delegate to the
enclosing scope.  With an enclosing scope binding `x` to `1` and an empty
inner scope, `get` on the inner scope returns the undefined-variable error
even though `x` is bound in the chain, contradicting "it returns an
undefined-variable error only when the name is bound nowhere in the whole
chain". -/
theorem c1_environment_get_counterexample :
    (Environment.from_parent (Environment.new.define "x" (.Number 1))).get
        (.mk .Identifier "x" none 3 7)
      = .error ⟨3, 7, "at 'x'", "Undefined variable 'x'."⟩ := by
  rfl

/-- C1 (amended) — `Environment::get` consults only the scope's local
mapping: the result is the same for every enclosing chain; a local hit
returns the bound value; a local miss returns the undefined-variable error
carrying the token's line and column, regardless of bindings in enclosing
scopes. -/
theorem c1_environment_get_local_only (env : Environment) (name : Token) :
    (∀ p q : Option Environment,
        Environment.get (.mk p env.values) name
          = Environment.get (.mk q env.values) name) ∧
    (∀ v : Literal, valuesGet env.values name.lexeme = some v →
        env.get name = .ok v) ∧
    (valuesGet env.values name.lexeme = none → name.token_type ≠ .Eof →
        env.get name
          = .error ⟨name.line, name.col, "at '" ++ name.lexeme ++ "'",
              "Undefined variable '" ++ name.lexeme ++ "'."⟩) := by
  refine ⟨fun p q => ?_, fun v hv => ?_, fun hmiss heof => ?_⟩
  · simp [Environment.get, Environment.values]
  · simp [Environment.get, hv]
  · simp only [Environment.get, hmiss]
    cases htt : name.token_type <;>
      simp_all [undefinedVariable, LoxError.from_token, LoxError.with_place,
        Token.token_type]

/-- C1 — witness: the amended theorem applied to a scope with an empty local
mapping and the identifier token `x` at line 3, column 7. -/
theorem c1_environment_get_local_only_witness :
    (Environment.mk (some (Environment.new.define "x" (.Number 1))) []).get
        (.mk .Identifier "x" none 3 7)
      = .error ⟨3, 7, "at 'x'", "Undefined variable 'x'."⟩ :=
  (c1_environment_get_local_only
      (.mk (some (Environment.new.define "x" (.Number 1))) [])
      (.mk .Identifier "x" none 3 7)).2.2 (by rfl) (by decide)

/-- C2 — counterexample: `Environment::assign` does not delegate either.
Assigning `x` from an inner scope whose enclosing scope declares `x` returns
the undefined-variable error and leaves the chain unchanged — the outer
binding is not mutated, contradicting the claimed delegation and the claimed
observable mutation of the outer binding. -/
theorem c2_environment_assign_counterexample :
    (Environment.from_parent (Environment.new.define "x" (.Number 1))).assign
        (.mk .Identifier "x" none 5 2) (.Number 99)
      = (.error ⟨5, 2, "at 'x'", "Undefined variable 'x'."⟩,
         Environment.from_parent (Environment.new.define "x" (.Number 1))) := by
  rfl

/-- C2 (amended) — `Environment::assign` checks only the local mapping: a
local hit overwrites there (parent untouched) and returns the value; on a
local miss it returns the undefined-variable error and leaves the
environment unchanged — it never creates a binding and never consults the
enclosing scope, whose contents cannot affect the result. -/
theorem c2_environment_assign_local_only (env : Environment) (name : Token)
    (value : Literal) :
    ((valuesGet env.values name.lexeme).isSome = true →
        env.assign name value
          = (.ok value, .mk env.parent
              (valuesInsert env.values name.lexeme value))) ∧
    (valuesGet env.values name.lexeme = none →
        env.assign name value = (.error (undefinedVariable name), env)) ∧
    (∀ p q : Option Environment,
        (Environment.assign (.mk p env.values) name value).1
          = (Environment.assign (.mk q env.values) name value).1) := by
  refine ⟨fun hhit => ?_, fun hmiss => ?_, fun p q => ?_⟩
  · simp [Environment.assign, hhit]
  · simp [Environment.assign, hmiss]
  · simp only [Environment.assign, Environment.values]
    split <;> rfl

/-- C2 — witness: the amended theorem's local-miss case applied to the inner
scope of the counterexample chain. -/
theorem c2_environment_assign_local_only_witness :
    (Environment.mk (some (Environment.new.define "x" (.Number 1))) []).assign
        (.mk .Identifier "x" none 5 2) (.Number 99)
      = (.error (undefinedVariable (.mk .Identifier "x" none 5 2)),
         .mk (some (Environment.new.define "x" (.Number 1))) []) :=
  (c2_environment_assign_local_only
      (.mk (some (Environment.new.define "x" (.Number 1))) [])
      (.mk .Identifier "x" none 5 2) (.Number 99)).2.1 (by rfl)

/-- C3 — counterexample: a script-level interpretation error in one batch
file *does* stop processing of subsequent files.  The file `1();` parses but
fails at run time; batch over it followed by `print "hi";` returns that
error with no output, although the second file on its own runs and prints
`hi`. -/
theorem c3_batch_counterexample :
    batch 99 [callNumberToks, printHiToks] []
      = (.error ⟨1, 3, "at ')'", "Can only call functions and classes."⟩, []) ∧
    run_file 99 printHiToks [] = (.ok (), ["hi"]) := by
  exact ⟨rfl, rfl⟩

/-- C3 (amended) — batch runs the files sequentially, each with a fresh
`Environment`, and aborts at the first file whose run fails, propagating
that error; subsequent files are not processed.  The closed conjunct shows
the fresh environment per file: `var x = 1;` in the first file does not make
`x` assignable in the second, which fails with the undefined-variable
error. -/
theorem c3_batch_sequential_abort (fuel : Nat) (f : List Token)
    (rest : List (List Token)) (out : Output) :
    (∀ (e : LoxError) (o : Output), run_file fuel f out = (.error e, o) →
        batch fuel (f :: rest) out = (.error e, o)) ∧
    (∀ o : Output, run_file fuel f out = (.ok (), o) →
        batch fuel (f :: rest) out = batch fuel rest o) ∧
    batch 99 [varXToks, assignXToks] []
      = (.error ⟨2, 1, "at 'x'", "Undefined variable 'x'."⟩, []) := by
  refine ⟨fun e o h => ?_, fun o h => ?_, ?_⟩
  · simp [batch, h]
  · simp [batch, h]
  · rfl

/-- C3 — witness: the abort conjunct applied to the concrete two-file batch
of the counterexample. -/
theorem c3_batch_sequential_abort_witness :
    batch 99 (callNumberToks :: [printHiToks]) []
      = (.error ⟨1, 3, "at ')'", "Can only call functions and classes."⟩, []) :=
  (c3_batch_sequential_abort 99 callNumberToks [printHiToks] []).1
    ⟨1, 3, "at ')'", "Can only call functions and classes."⟩ [] (by rfl)

/-- C4 — counterexample: on `1 +; 2 +; print 3;` the premise of the claim
holds — the first two statements are independently invalid (each
`declaration` call fails, synchronizing past its `;`) and a valid trailing
statement follows (the third `declaration` succeeds) — yet `parse` reports
only the first syntax error and produces no statements, because its `?`
propagates the first declaration failure. -/
theorem c4_parse_counterexample :
    parse 99 twoErrorsToks = .error ⟨1, 3, "at ';'", "Expect expression."⟩ ∧
    declaration 99 ⟨twoErrorsToks, 0⟩
      = (.error ⟨1, 3, "at ';'", "Expect expression."⟩, ⟨twoErrorsToks, 3⟩) ∧
    declaration 99 ⟨twoErrorsToks, 3⟩
      = (.error ⟨1, 6, "at ';'", "Expect expression."⟩, ⟨twoErrorsToks, 6⟩) ∧
    declaration 99 ⟨twoErrorsToks, 6⟩
      = (.ok (.Print (.Literal (.Number 3))), ⟨twoErrorsToks, 9⟩) := by
  exact ⟨rfl, rfl, rfl, rfl⟩

/-- C4 (amended) — a failed declaration synchronizes the parser past the
invalid statement, but `parse` propagates the first error: whenever the
current declaration fails, the parse loop returns that very error, so a
source with two independently invalid statements and a valid trailing one
reports only the first syntax error and yields no statements (closed
conjuncts: the concrete source, and the synchronized state after its first
failure). -/
theorem c4_parse_first_error_only :
    (∀ (fuel : Nat) (acc : List Stmt) (st : PState) (e : LoxError)
        (st' : PState), st.is_at_end = false →
        declaration fuel st = (.error e, st') →
        parseLoop (fuel + 1) acc st = (.error e, st')) ∧
    parse 99 twoErrorsToks = .error ⟨1, 3, "at ';'", "Expect expression."⟩ ∧
    (declaration 99 ⟨twoErrorsToks, 0⟩).2 = ⟨twoErrorsToks, 3⟩ := by
  refine ⟨fun fuel acc st e st' h hd => ?_, rfl, rfl⟩
  simp [parseLoop, h, hd]

/-- C4 — witness: the propagation conjunct applied at the concrete source,
whose first declaration fails at the first `;`. -/
theorem c4_parse_first_error_only_witness :
    parseLoop (99 + 1) [] ⟨twoErrorsToks, 0⟩
      = (.error ⟨1, 3, "at ';'", "Expect expression."⟩, ⟨twoErrorsToks, 3⟩) :=
  c4_parse_first_error_only.1 99 [] ⟨twoErrorsToks, 0⟩
    ⟨1, 3, "at ';'", "Expect expression."⟩ ⟨twoErrorsToks, 3⟩ (by rfl) (by rfl)

/-- C5 — counterexample: the logic tiers do not repeat.  `logic_or` consumes
at most one `or`: on `a or b or c;` it returns `a or b` stopping in front of
the second `or` (cursor 3), and the whole parse then fails expecting `;` —
the chain does not "parse successfully", contradicting the claim for the
logic_or tier. -/
theorem c5_logic_chain_counterexample :
    parse 99 orChainToks
      = .error ⟨1, 4, "at 'or'", "Expect ';' after expression."⟩ ∧
    logic_or 99 ⟨orChainToks, 0⟩
      = (.ok (.Logical (.Variable (.mk .Identifier "a" none 1 1))
            (.mk .Or "or" none 1 2)
            (.Variable (.mk .Identifier "b" none 1 3))),
         ⟨orChainToks, 3⟩) := by
  exact ⟨rfl, rfl⟩

/-- C5 (amended) — the equality, comparison, term and factor tiers
repeatedly consume same-tier operators, so *every* chain of same-tier
operators at those four tiers (arbitrary length, arbitrary operand values)
parses successfully and groups left-associatively into the left-nested
`Binary` tree; `logic_or` and `logic_and` consume at most one operator at
their tier, so chains of two or more `or`s/`and`s are syntax errors (closed
conjuncts: the four concrete tier chains, and the failing `and` chain). -/
theorem c5_tier_associativity :
    (∀ (a : Rat) (ops : List (TokenType × Rat)) (fuel : Nat),
      ((∀ p ∈ ops, p.1 = TokenType.Slash ∨ p.1 = TokenType.Star) ∨
       (∀ p ∈ ops, p.1 = TokenType.Minus ∨ p.1 = TokenType.Plus) ∨
       (∀ p ∈ ops, p.1 = TokenType.Greater ∨ p.1 = TokenType.GreaterEqual ∨
         p.1 = TokenType.Less ∨ p.1 = TokenType.LessEqual) ∨
       (∀ p ∈ ops, p.1 = TokenType.BangEqual ∨ p.1 = TokenType.EqualEqual)) →
      parse (8 * ops.length + fuel + 16) (chainToks a ops)
        = .ok [.Expression (leftNested a ops)]) ∧
    parse 99 eqChainToks
      = .ok [ .Expression (.Binary
          (.Binary (.Literal (.Number 1)) (.mk .EqualEqual "==" none 1 2)
            (.Literal (.Number 2)))
          (.mk .BangEqual "!=" none 1 4) (.Literal (.Number 3))) ] ∧
    parse 99 cmpChainToks
      = .ok [ .Expression (.Binary (.Binary
          (.Binary (.Literal (.Number 1)) (.mk .Less "<" none 1 2)
            (.Literal (.Number 2)))
          (.mk .LessEqual "<=" none 1 4) (.Literal (.Number 3)))
          (.mk .Greater ">" none 1 6) (.Literal (.Number 0))) ] ∧
    parse 99 termChainToks
      = .ok [ .Expression (.Binary (.Binary
          (.Binary (.Literal (.Number 1)) (.mk .Minus "-" none 1 2)
            (.Literal (.Number 2)))
          (.mk .Plus "+" none 1 4) (.Literal (.Number 3)))
          (.mk .Minus "-" none 1 6) (.Literal (.Number 4))) ] ∧
    parse 99 factorChainToks
      = .ok [ .Expression (.Binary (.Binary
          (.Binary (.Literal (.Number 8)) (.mk .Slash "/" none 1 2)
            (.Literal (.Number 2)))
          (.mk .Star "*" none 1 4) (.Literal (.Number 2)))
          (.mk .Slash "/" none 1 6) (.Literal (.Number 4))) ] ∧
    parse 99 andChainToks
      = .error ⟨1, 4, "at 'and'", "Expect ';' after expression."⟩ := by
  exact ⟨fun a ops fuel htier => parse_chain a ops fuel htier,
    rfl, rfl, rfl, rfl, rfl⟩

/-- C5 — witness: the universal conjunct applied to the four-element
term-tier chain `1 - 2 + 3 - 4 ;` built by `chainToks`, yielding the
left-nested tree. -/
theorem c5_tier_associativity_witness :
    parse (8 * 3 + 0 + 16)
        (chainToks 1 [(TokenType.Minus, 2), (TokenType.Plus, 3),
          (TokenType.Minus, 4)])
      = .ok [.Expression (leftNested 1 [(TokenType.Minus, 2),
          (TokenType.Plus, 3), (TokenType.Minus, 4)])] :=
  c5_tier_associativity.1 1
    [(TokenType.Minus, 2), (TokenType.Plus, 3), (TokenType.Minus, 4)] 0
    (Or.inr (Or.inl (by simp)))

/-- Evaluating a `Binary` node whose operands are literal expressions yields
`binaryOp` on the two values, with state untouched. -/
theorem evaluate_binary_literals (fuel : Nat) (l r : Literal) (op : Token)
    (out : Output) (env : Environment) :
    evaluate (fuel + 2) (.Binary (.Literal l) op (.Literal r)) out env
      = (binaryOp op l r, out, env) := rfl

/-- C6 — `and`/`or` short-circuit exactly as claimed: with the left operand
evaluating to `v`, an `or` returns `v` itself (uncoerced) when `v` is truthy
and an `and` returns `v` itself when `v` is falsy — for an *arbitrary* right
operand, which is therefore never evaluated and whose errors cannot
surface — and otherwise the result is exactly the evaluation of the right
operand, as-is. -/
theorem c6_logical_short_circuit (fuel : Nat) (left right : Expr) (op : Token)
    (out o : Output) (env en : Environment) (v : Literal)
    (hl : evaluate fuel left out env = (.ok v, o, en)) :
    (op.token_type = .Or → v.is_truthy = true →
        evaluate (fuel + 1) (.Logical left op right) out env = (.ok v, o, en)) ∧
    (op.token_type = .Or → v.is_truthy = false →
        evaluate (fuel + 1) (.Logical left op right) out env
          = evaluate fuel right o en) ∧
    (op.token_type = .And → v.is_truthy = false →
        evaluate (fuel + 1) (.Logical left op right) out env = (.ok v, o, en)) ∧
    (op.token_type = .And → v.is_truthy = true →
        evaluate (fuel + 1) (.Logical left op right) out env
          = evaluate fuel right o en) := by
  refine ⟨fun hop htr => ?_, fun hop htr => ?_, fun hop htr => ?_,
    fun hop htr => ?_⟩ <;>
    simp [evaluate, hl, hop, htr]

/-- C6 — witness: `false and (-"s")` evaluates to the left operand `false`
itself, although the right operand on its own raises a type error. -/
theorem c6_logical_short_circuit_witness :
    evaluate 2 (.Logical (.Literal (.Bool false)) (.mk .And "and" none 1 2)
        (.Unary (.mk .Minus "-" none 1 3) (.Literal (.Str "s")))) []
        Environment.new
      = (.ok (.Bool false), [], Environment.new) ∧
    evaluate 2 (.Unary (.mk .Minus "-" none 1 3) (.Literal (.Str "s"))) []
        Environment.new
      = (.error (.unexpected_type (.mk .Minus "-" none 1 3)), [],
         Environment.new) :=
  ⟨(c6_logical_short_circuit 1 (.Literal (.Bool false))
      (.Unary (.mk .Minus "-" none 1 3) (.Literal (.Str "s")))
      (.mk .And "and" none 1 2) [] [] Environment.new Environment.new
      (.Bool false) (by rfl)).2.2.1 (by rfl) (by rfl),
   by rfl⟩

/-- C7 spec-side rule for `>`, following the claim's words: two Numbers or
two Bools compare by the underlying ordering, any other pairing compares the
operands' truthiness values. -/
def specGt : Literal → Literal → BoolT
  | .Number a, .Number b => decide (a > b)
  | .Bool a, .Bool b => boolGt a b
  | a, b => boolGt a.is_truthy b.is_truthy

/-- C7 spec-side rule for `>=` (see `specGt`). -/
def specGe : Literal → Literal → BoolT
  | .Number a, .Number b => decide (a ≥ b)
  | .Bool a, .Bool b => boolGe a b
  | a, b => boolGe a.is_truthy b.is_truthy

/-- C7 spec-side rule for `<` (see `specGt`). -/
def specLt : Literal → Literal → BoolT
  | .Number a, .Number b => decide (a < b)
  | .Bool a, .Bool b => boolLt a b
  | a, b => boolLt a.is_truthy b.is_truthy

/-- C7 spec-side rule for `<=` (see `specGt`). -/
def specLe : Literal → Literal → BoolT
  | .Number a, .Number b => decide (a ≤ b)
  | .Bool a, .Bool b => boolLe a b
  | a, b => boolLe a.is_truthy b.is_truthy

/-- C7 — for every pair of operand values and each of `>`, `>=`, `<`, `<=`,
evaluation returns `Ok` with the boolean of the claimed rule — the ordering
for Number–Number and Bool–Bool pairs, the truthiness comparison for every
other pairing — and never a type error. -/
theorem c7_comparison_fallback (l r : Literal) (lex : String)
    (litv : Option Literal) (line col fuel : Nat) (out : Output)
    (env : Environment) :
    evaluate (fuel + 2)
        (.Binary (.Literal l) (.mk .Greater lex litv line col) (.Literal r))
        out env
      = (.ok (.Bool (specGt l r)), out, env) ∧
    evaluate (fuel + 2)
        (.Binary (.Literal l) (.mk .GreaterEqual lex litv line col)
          (.Literal r)) out env
      = (.ok (.Bool (specGe l r)), out, env) ∧
    evaluate (fuel + 2)
        (.Binary (.Literal l) (.mk .Less lex litv line col) (.Literal r))
        out env
      = (.ok (.Bool (specLt l r)), out, env) ∧
    evaluate (fuel + 2)
        (.Binary (.Literal l) (.mk .LessEqual lex litv line col) (.Literal r))
        out env
      = (.ok (.Bool (specLe l r)), out, env) := by
  refine ⟨?_, ?_, ?_, ?_⟩ <;>
    (rw [evaluate_binary_literals]; cases l <;> cases r <;> rfl)

/-- The argument loop of the `Expr::Call` arm evaluates a list of literal
argument expressions to their values, leaving the state untouched. -/
theorem evaluateArgs_literals (vals : List Literal) (fuel : Nat)
    (out : Output) (env : Environment) :
    evaluateArgs (fuel + vals.length + 1) (vals.map .Literal) out env
      = (.ok vals, out, env) := by
  induction vals with
  | nil => rfl
  | cons v rest ih =>
    have h1 : fuel + (v :: rest).length + 1 = fuel + rest.length + 1 + 1 := by
      simp [List.length_cons]
      omega
    rw [h1]
    rw [show (evaluateArgs (fuel + rest.length + 1 + 1)
          ((v :: rest).map Expr.Literal) out env)
        = (match evaluateArgs (fuel + rest.length + 1) (rest.map .Literal)
              out env with
           | (Except.error e, o, en) => (Except.error e, o, en)
           | (Except.ok vs, o₂, en₂) => (Except.ok (v :: vs), o₂, en₂))
        from rfl]
    rw [ih]

/-- C8 — a call evaluates the callee, then the arguments left-to-right (an
argument's error surfaces even for a non-callable callee), then fails with
"Can only call functions and classes." for a non-callable value, then fails
with the arity error when the argument count differs from the declared
arity — the output trace is untouched, so no body statement has executed —
and only when all checks pass is `Function::call` invoked. -/
theorem c8_call_check_order (fuel : Nat) (calleeVal : Literal)
    (vals : List Literal) (paren : Token) (out : Output) (env : Environment) :
    (calleeVal.callable = none →
        evaluate (fuel + vals.length + 1 + 1)
            (.Call (.Literal calleeVal) paren (vals.map .Literal)) out env
          = (.error (.from_token paren "Can only call functions and classes."),
             out, env)) ∧
    (∀ fn : Function, calleeVal = .Fun fn → vals.length ≠ fn.arity →
        evaluate (fuel + vals.length + 1 + 1)
            (.Call (.Literal calleeVal) paren (vals.map .Literal)) out env
          = (.error (.from_token paren (arityMessage fn.arity vals.length)),
             out, env)) ∧
    (∀ fn : Function, calleeVal = .Fun fn → vals.length = fn.arity →
        evaluate (fuel + vals.length + 1 + 1)
            (.Call (.Literal calleeVal) paren (vals.map .Literal)) out env
          = ((functionCall (fuel + vals.length + 1) fn out env vals).1,
             (functionCall (fuel + vals.length + 1) fn out env vals).2,
             env)) ∧
    (∀ (arg : Expr) (e : LoxError) (o : Output) (en : Environment),
        evaluate fuel arg out env = (.error e, o, en) →
        evaluate (fuel + 1 + 1) (.Call (.Literal calleeVal) paren [arg]) out env
          = (.error e, o, en)) := by
  refine ⟨fun hnc => ?_, fun fn hfn hne => ?_, fun fn hfn heq => ?_,
    fun arg e o en harg => ?_⟩
  · simp [evaluate, evaluateArgs_literals, hnc]
  · subst hfn
    simp [evaluate, evaluateArgs_literals, Literal.callable, hne]
  · subst hfn
    simp only [evaluate, evaluateArgs_literals, Literal.callable]
    simp [heq]
  · simp [evaluate, evaluateArgs, harg]

/-- C8 — witness: calling a one-parameter function whose body would print
`side` with two arguments fails with the arity error and prints nothing. -/
theorem c8_call_check_order_witness :
    evaluate 4
        (.Call (.Literal (.Fun (.mk (.mk .Identifier "f" none 1 1) ["a"]
            [.Print (.Literal (.Str "side"))])))
          (.mk .RightParen ")" none 1 9)
          [.Literal (.Number 1), .Literal (.Number 2)]) [] Environment.new
      = (.error ⟨1, 9, "at ')'", "Expected 1 + arguments but got 2."⟩, [],
         Environment.new) :=
  (c8_call_check_order 0
      (.Fun (.mk (.mk .Identifier "f" none 1 1) ["a"]
        [.Print (.Literal (.Str "side"))]))
      [.Number 1, .Number 2] (.mk .RightParen ")" none 1 9) []
      Environment.new).2.1
    (.mk (.mk .Identifier "f" none 1 1) ["a"] [.Print (.Literal (.Str "side"))])
    (by rfl) (by decide)

/-- C9 — `Literal::is_equal` on two `Fun` values compares only the lexemes
of their name tokens: for arbitrary functions `f` and `g` (parameters and
bodies unconstrained), `f == g` evaluates to the boolean equality of the
name lexemes and `f != g` to its exact negation. -/
theorem c9_function_equality_by_name (f g : Function) (lex : String)
    (litv : Option Literal) (line col fuel : Nat) (out : Output)
    (env : Environment) :
    Literal.is_equal (.Fun f) (.Fun g)
      = .Bool (f.name.lexeme == g.name.lexeme) ∧
    evaluate (fuel + 2)
        (.Binary (.Literal (.Fun f)) (.mk .EqualEqual lex litv line col)
          (.Literal (.Fun g))) out env
      = (.ok (.Bool (f.name.lexeme == g.name.lexeme)), out, env) ∧
    evaluate (fuel + 2)
        (.Binary (.Literal (.Fun f)) (.mk .BangEqual lex litv line col)
          (.Literal (.Fun g))) out env
      = (.ok (.Bool (!(f.name.lexeme == g.name.lexeme))), out, env) := by
  refine ⟨rfl, ?_, ?_⟩ <;> rw [evaluate_binary_literals] <;> rfl

/-- C10 — `/` on two Numbers always returns `Ok` with a Number (division by
zero included: no runtime error exists for it), and errors exactly when an
operand is not a Number. -/
theorem c10_division_never_errors (a b : Rat) (lex : String)
    (litv : Option Literal) (line col fuel : Nat) (out : Output)
    (env : Environment) :
    evaluate (fuel + 2)
        (.Binary (.Literal (.Number a)) (.mk .Slash lex litv line col)
          (.Literal (.Number b))) out env
      = (.ok (.Number (a / b)), out, env) ∧
    (∀ l r : Literal, l.number = none ∨ r.number = none →
        evaluate (fuel + 2)
            (.Binary (.Literal l) (.mk .Slash lex litv line col) (.Literal r))
            out env
          = (.error (.unexpected_type (.mk .Slash lex litv line col)), out,
             env)) := by
  refine ⟨by rw [evaluate_binary_literals]; rfl, fun l r h => ?_⟩
  rw [evaluate_binary_literals]
  rcases h with h | h <;> cases l <;> cases r <;>
    simp_all [binaryOp, Token.token_type, Literal.operate_number_binary,
      Literal.operate_number, Literal.number]

/-- C10 — witness: `1 / 0` evaluates to `Ok` with a Number, and `"s" / 1`
fails with the operand type error. -/
theorem c10_division_never_errors_witness :
    evaluate 2
        (.Binary (.Literal (.Number 1)) (.mk .Slash "/" none 1 2)
          (.Literal (.Number 0))) [] Environment.new
      = (.ok (.Number (1 / 0)), [], Environment.new) ∧
    evaluate 2
        (.Binary (.Literal (.Str "s")) (.mk .Slash "/" none 1 2)
          (.Literal (.Number 1))) [] Environment.new
      = (.error (.unexpected_type (.mk .Slash "/" none 1 2)), [],
         Environment.new) :=
  ⟨(c10_division_never_errors 1 0 "/" none 1 2 0 [] Environment.new).1,
   (c10_division_never_errors 1 0 "/" none 1 2 0 [] Environment.new).2
     (.Str "s") (.Number 1) (Or.inl (by rfl))⟩

end Rlox
